import Mathlib

/-!
# Verification of the cellular-automaton fire-spread engine

Shallow embedding of `Demo-app/core/cellular_automata_engine.py`
(`CellularAutomatonEngine` and its helpers).  Python floats are modelled
as exact rationals (`ℚ`); the spread-probability computation, which uses
`math.sqrt`, is modelled over the reals (`ℝ`).  The grid
`List[List[CellState]]` is modelled as a total function `ℕ → ℕ → CellState`;
the engine only ever reads and writes in-bounds positions, so out-of-bounds
values are irrelevant junk.  Python's global `random.random()` stream is
modelled as an explicit oracle `ℕ → ℚ` together with a threaded counter; a
draw is consumed for every neighbor visited, exactly as in the source.
-/

namespace FireSim

/-- The `BurnState` enum from the source (UNBURNED / BURNING / BURNED / ASH). -/
inductive BurnState where
  | unburned
  | burning
  | burned
  | ash
deriving DecidableEq, Repr

/-- The `WindDirection` enum from the source (8 compass points). -/
inductive WindDirection where
  | north
  | northeast
  | east
  | southeast
  | south
  | southwest
  | west
  | northwest
deriving DecidableEq, Repr

/-- The `EnvironmentalConditions` dataclass with the source's defaults. -/
structure EnvironmentalConditions where
  temperature : ℚ := 25
  humidity : ℚ := 50
  wind_speed : ℚ := 5
  wind_direction : WindDirection := WindDirection.north
  rain_probability : ℚ := 0
  time_of_day : ℤ := 12
deriving DecidableEq

/-- The `CellState` dataclass: the per-cell mutable state. -/
structure CellState where
  terrain_type : String
  burn_state : BurnState
  burn_intensity : ℚ := 0
  burn_duration : ℤ := 0
  moisture : ℚ := 0.5
  fuel_load : ℚ := 1
  temperature : ℚ := 20
deriving DecidableEq

instance : Inhabited CellState :=
  ⟨{ terrain_type := "grass", burn_state := BurnState.unburned }⟩

/-- One bundle of the `terrain_fire_params` table. -/
structure TerrainParams where
  max_burn_duration : ℤ
  spread_probability : ℚ
  fuel_consumption_rate : ℚ
  heat_generation : ℚ
  moisture_loss_rate : ℚ
  ignition_threshold : ℚ
  is_flammable : Bool
deriving DecidableEq

def forestParams : TerrainParams :=
  { max_burn_duration := 8, spread_probability := 0.8, fuel_consumption_rate := 0.12,
    heat_generation := 0.9, moisture_loss_rate := 0.15, ignition_threshold := 0.3,
    is_flammable := true }

def grassParams : TerrainParams :=
  { max_burn_duration := 3, spread_probability := 0.95, fuel_consumption_rate := 0.25,
    heat_generation := 0.7, moisture_loss_rate := 0.3, ignition_threshold := 0.2,
    is_flammable := true }

def shrubParams : TerrainParams :=
  { max_burn_duration := 5, spread_probability := 0.75, fuel_consumption_rate := 0.18,
    heat_generation := 0.8, moisture_loss_rate := 0.2, ignition_threshold := 0.35,
    is_flammable := true }

def agricultureParams : TerrainParams :=
  { max_burn_duration := 4, spread_probability := 0.6, fuel_consumption_rate := 0.2,
    heat_generation := 0.6, moisture_loss_rate := 0.25, ignition_threshold := 0.4,
    is_flammable := true }

def urbanParams : TerrainParams :=
  { max_burn_duration := 12, spread_probability := 0.1, fuel_consumption_rate := 0.05,
    heat_generation := 0.3, moisture_loss_rate := 0.1, ignition_threshold := 0.9,
    is_flammable := true }

def waterParams : TerrainParams :=
  { max_burn_duration := 0, spread_probability := 0, fuel_consumption_rate := 0,
    heat_generation := 0, moisture_loss_rate := 0, ignition_threshold := 999,
    is_flammable := false }

def bareGroundParams : TerrainParams :=
  { max_burn_duration := 1, spread_probability := 0.1, fuel_consumption_rate := 0.8,
    heat_generation := 0.2, moisture_loss_rate := 0.4, ignition_threshold := 0.85,
    is_flammable := true }

def beachParams : TerrainParams :=
  { max_burn_duration := 1, spread_probability := 0.05, fuel_consumption_rate := 0.9,
    heat_generation := 0.1, moisture_loss_rate := 0.5, ignition_threshold := 0.95,
    is_flammable := false }

def desertParams : TerrainParams :=
  { max_burn_duration := 2, spread_probability := 0.2, fuel_consumption_rate := 0.6,
    heat_generation := 0.3, moisture_loss_rate := 0.6, ignition_threshold := 0.8,
    is_flammable := true }

/-- The `self.terrain_fire_params.get(terrain_type, self.terrain_fire_params['grass'])`:
dictionary lookup with fallback to the grass bundle for unknown keys. -/
def terrainFireParamsGet (t : String) : TerrainParams :=
  if t = "forest" then forestParams
  else if t = "grass" then grassParams
  else if t = "shrub" then shrubParams
  else if t = "agriculture" then agricultureParams
  else if t = "urban" then urbanParams
  else if t = "water" then waterParams
  else if t = "bare_ground" then bareGroundParams
  else if t = "beach" then beachParams
  else if t = "desert" then desertParams
  else grassParams

theorem terrainFireParamsGet_forest : terrainFireParamsGet "forest" = forestParams := by
  simp [terrainFireParamsGet]

theorem terrainFireParamsGet_grass : terrainFireParamsGet "grass" = grassParams := by
  simp [terrainFireParamsGet]

theorem terrainFireParamsGet_water : terrainFireParamsGet "water" = waterParams := by
  simp [terrainFireParamsGet]

theorem terrainFireParamsGet_desert : terrainFireParamsGet "desert" = desertParams := by
  simp [terrainFireParamsGet]

/-- The grid `List[List[CellState]]`, abstracted as a total function on
(row, col); the engine only touches positions below `grid_size`. -/
abbrev Grid := ℕ → ℕ → CellState

/-- Point update of one grid cell (Python mutates the cell object in place). -/
def setCell (g : Grid) (r c : ℕ) (x : CellState) : Grid :=
  fun r' c' => if r' = r ∧ c' = c then x else g r' c'

/-- The `CellularAutomatonEngine` state: grid size, grid, tick counter, conditions. -/
structure Engine where
  grid_size : ℕ
  grid : Grid
  tick_count : ℕ
  conditions : EnvironmentalConditions

/-- The `CellularAutomatonEngine(grid_size)`: fresh engine; the Python grid starts
as an empty list (never read before initialization), modelled by junk cells. -/
def mkEngine (n : ℕ) : Engine :=
  { grid_size := n, grid := fun _ _ => default, tick_count := 0,
    conditions := {} }

/-- The `_is_valid_position`: `0 <= row < grid_size and 0 <= col < grid_size`. -/
def isValidPosition (n : ℕ) (row col : ℤ) : Bool :=
  decide (0 ≤ row ∧ row < (n : ℤ) ∧ 0 ≤ col ∧ col < (n : ℤ))

/-- The Moore neighborhood offsets (`self.moore_neighbors`, the default
`self.neighborhood`). -/
def mooreNeighbors : List (ℤ × ℤ) :=
  [(-1, -1), (-1, 0), (-1, 1), (0, -1), (0, 1), (1, -1), (1, 0), (1, 1)]

/-- The `_get_neighbors`: in-bounds Moore neighbors of `(r, c)`, in source order. -/
def getNeighbors (n : ℕ) (r c : ℕ) : List (ℕ × ℕ) :=
  mooreNeighbors.filterMap (fun d =>
    let nr : ℤ := (r : ℤ) + d.1
    let nc : ℤ := (c : ℤ) + d.2
    if 0 ≤ nr ∧ nr < (n : ℤ) ∧ 0 ≤ nc ∧ nc < (n : ℤ) then some (nr.toNat, nc.toNat)
    else none)

/-- The `ignite_cell(row, col, intensity)`: returns the (possibly updated) engine
and the boolean result.  Mirrors the source's branch structure exactly. -/
def igniteCell (e : Engine) (row col : ℤ) (intensity : ℚ) : Engine × Bool :=
  if isValidPosition e.grid_size row col = false then (e, false)
  else
    let r := row.toNat
    let c := col.toNat
    let cell := e.grid r c
    let terrain_params := terrainFireParamsGet cell.terrain_type
    if terrain_params.is_flammable = false then (e, false)
    else if cell.burn_state = BurnState.unburned ∧ cell.fuel_load > 0 then
      let ignition_threshold := terrain_params.ignition_threshold
      let moisture_resistance := cell.moisture * ignition_threshold
      if intensity > moisture_resistance then
        let ignited : CellState :=
          { cell with burn_state := BurnState.burning,
                      burn_intensity := min 1 intensity,
                      burn_duration := 1 }
        ({ e with grid := setCell e.grid r c ignited }, true)
      else (e, false)
    else (e, false)

/-- One entry of the caller-supplied terrain classification:
`{'terrain_type': ..., 'properties': {'moisture_retention': ...}}`. -/
structure TerrainData where
  terrain_type : String
  moisture_retention : Option ℚ := none
deriving DecidableEq

instance : Inhabited TerrainData := ⟨{ terrain_type := "grass" }⟩

/-- Cell construction inside `initialize_from_terrain_grid`: terrain-keyed
base moisture, optional override, fuel only for flammable terrain. -/
def mkCellFromTerrain (cond : EnvironmentalConditions) (td : TerrainData) : CellState :=
  let terrain_params := terrainFireParamsGet td.terrain_type
  let base_moisture : ℚ :=
    if td.terrain_type = "water" then 1
    else if td.terrain_type = "urban" ∨ td.terrain_type = "bare_ground" ∨
            td.terrain_type = "desert" then 0.2
    else if td.terrain_type = "agriculture" ∨ td.terrain_type = "grass" then 0.5
    else 0.6
  { terrain_type := td.terrain_type,
    burn_state := BurnState.unburned,
    burn_intensity := 0,
    burn_duration := 0,
    moisture := td.moisture_retention.getD base_moisture,
    fuel_load := if terrain_params.is_flammable then 1 else 0,
    temperature := cond.temperature }

/-- Build a list from `f` applied to each element, aborting on the first
failure — the shape of a Python `for` loop that appends and may raise. -/
def traverseOption {α β : Type} (f : α → Option β) : List α → Option (List β)
  | [] => some []
  | x :: xs =>
    match f x, traverseOption f xs with
    | some y, some ys => some (y :: ys)
    | _, _ => none

/-- The `initialize_from_terrain_grid(terrain_grid)`: builds the grid by indexing
`terrain_grid[row][col]` for every `row, col < grid_size`.  A Python
`IndexError` (terrain grid too small) is modelled as `none`.  Note the source
performs no dimension validation: extra rows/columns are simply never read. -/
def initFromTerrainGrid (e : Engine) (tg : List (List TerrainData)) : Option Engine :=
  (traverseOption (fun r =>
    traverseOption (fun c =>
      ((tg.get? r).bind (fun row => row.get? c)).map (mkCellFromTerrain e.conditions))
      (List.range e.grid_size))
    (List.range e.grid_size)).map
  (fun rows => { e with grid := fun r c => ((rows.getD r []).getD c default) })

/-- The `reset()`: zero the tick counter and restore every in-bounds cell.
Note the source sets `fuel_load = 1.0` unconditionally (water included) and
uses a moisture table that differs from initialization (no `desert` case,
and `forest`/`shrub` fall into the 0.5 default). -/
def resetEngine (e : Engine) : Engine :=
  { e with
    tick_count := 0,
    grid := fun r c =>
      if r < e.grid_size ∧ c < e.grid_size then
        let cell := e.grid r c
        { cell with
          burn_state := BurnState.unburned,
          burn_intensity := 0,
          burn_duration := 0,
          fuel_load := 1,
          temperature := e.conditions.temperature,
          moisture :=
            if cell.terrain_type = "water" then 1
            else if cell.terrain_type = "urban" ∨ cell.terrain_type = "bare_ground" then 0.2
            else 0.5 }
      else e.grid r c }

/-- Partial payload for `set_environmental_conditions`. -/
structure EnvUpdate where
  temperature : Option ℚ := none
  humidity : Option ℚ := none
  wind_speed : Option ℚ := none
  wind_direction : Option String := none
  rain_probability : Option ℚ := none
  time_of_day : Option ℤ := none

/-- The `wind_dir_map` lookup with fallback to `NORTH` for unknown names,
applied to the lowercased input string. -/
def windDirFromString (s : String) : WindDirection :=
  let t := s.toLower
  if t = "north" then WindDirection.north
  else if t = "northeast" then WindDirection.northeast
  else if t = "east" then WindDirection.east
  else if t = "southeast" then WindDirection.southeast
  else if t = "south" then WindDirection.south
  else if t = "southwest" then WindDirection.southwest
  else if t = "west" then WindDirection.west
  else if t = "northwest" then WindDirection.northwest
  else WindDirection.north

/-- The `set_environmental_conditions`: partial field-wise update. -/
def setEnvironmentalConditions (e : Engine) (u : EnvUpdate) : Engine :=
  { e with conditions :=
    { temperature := u.temperature.getD e.conditions.temperature,
      humidity := u.humidity.getD e.conditions.humidity,
      wind_speed := u.wind_speed.getD e.conditions.wind_speed,
      wind_direction :=
        match u.wind_direction with
        | some s => windDirFromString s
        | none => e.conditions.wind_direction,
      rain_probability := u.rain_probability.getD e.conditions.rain_probability,
      time_of_day := u.time_of_day.getD e.conditions.time_of_day } }

/-- Aggregate statistics record returned by `_calculate_statistics`. -/
structure Stats where
  unburned : ℕ
  burning : ℕ
  burned : ℕ
  total_cells : ℕ
  total_burned : ℕ
  avg_intensity : ℚ
  avg_temperature : ℚ
  fuel_remaining : ℚ
deriving DecidableEq

/-- The grid's cells in the row-major order the statistics loop visits them. -/
def cellList (e : Engine) : List CellState :=
  (List.range e.grid_size).flatMap (fun r =>
    (List.range e.grid_size).map (fun c => e.grid r c))

/-- Accumulator of the statistics loop:
(unburned, burning, burned, total_intensity, total_temperature, total_fuel).
The source's `burning_count` local always equals the `burning` counter. -/
def statsFold (cells : List CellState) : ℕ × ℕ × ℕ × ℚ × ℚ × ℚ :=
  cells.foldl
    (fun acc cell =>
      let (u, bg, bd, ti, tt, tf) := acc
      if cell.burn_state = BurnState.unburned then
        (u + 1, bg, bd, ti, tt + cell.temperature, tf + cell.fuel_load)
      else if cell.burn_state = BurnState.burning then
        (u, bg + 1, bd, ti + cell.burn_intensity, tt + cell.temperature,
         tf + cell.fuel_load)
      else
        (u, bg, bd + 1, ti, tt + cell.temperature, tf + cell.fuel_load))
    (0, 0, 0, 0, 0, 0)

/-- The `_calculate_statistics()`: pure aggregation over the whole grid. -/
def calcStatistics (e : Engine) : Stats :=
  let (u, bg, bd, ti, tt, tf) := statsFold (cellList e)
  let total_cells := e.grid_size * e.grid_size
  { unburned := u,
    burning := bg,
    burned := bd,
    total_cells := total_cells,
    total_burned := bd,
    avg_intensity := if bg > 0 then ti / (bg : ℚ) else 0,
    avg_temperature := tt / (total_cells : ℚ),
    fuel_remaining := tf / (total_cells : ℚ) }

/-- The `wind_directions` table: compass point to (row, col) offset. -/
def windDirections : WindDirection → ℤ × ℤ
  | WindDirection.north => (-1, 0)
  | WindDirection.northeast => (-1, 1)
  | WindDirection.east => (0, 1)
  | WindDirection.southeast => (1, 1)
  | WindDirection.south => (1, 0)
  | WindDirection.southwest => (1, -1)
  | WindDirection.west => (0, -1)
  | WindDirection.northwest => (-1, -1)

/-- The `_calculate_wind_effect(from_row, from_col, to_row, to_col)`:
alignment of the source-to-target direction with the wind vector, scaled by
wind speed, floored at 0.1.  `math.sqrt` is modelled by `Real.sqrt`. -/
noncomputable def calculateWindEffect (cond : EnvironmentalConditions)
    (from_row from_col to_row to_col : ℤ) : ℝ :=
  let dr : ℤ := to_row - from_row
  let dc : ℤ := to_col - from_col
  let w := windDirections cond.wind_direction
  let wind_dr := w.1
  let wind_dc := w.2
  let alignment : ℝ :=
    if wind_dr = 0 ∧ wind_dc = 0 then 0
    else ((dr * wind_dr + dc * wind_dc : ℤ) : ℝ) /
      Real.sqrt ((dr * dr + dc * dc : ℤ) : ℝ) /
      Real.sqrt ((wind_dr * wind_dr + wind_dc * wind_dc : ℤ) : ℝ)
  let wind_factor : ℝ := min 1 ((cond.wind_speed : ℝ) / 50)
  let wind_effect : ℝ := 1 + alignment * wind_factor * 0.5
  max 0.1 wind_effect

/-- The `_calculate_spread_probability(source_cell, target_cell, ...)`:
per-tick Bernoulli parameter for fire spreading from source to target.
Mirrors the source's early-return structure exactly. -/
noncomputable def calculateSpreadProbability (cond : EnvironmentalConditions)
    (source_cell target_cell : CellState)
    (source_row source_col target_row target_col : ℤ) : ℝ :=
  if target_cell.burn_state ≠ BurnState.unburned ∨ target_cell.fuel_load ≤ 0 then 0
  else
    let target_params := terrainFireParamsGet target_cell.terrain_type
    if target_params.is_flammable = false then 0
    else
      let base_prob : ℝ := (target_params.spread_probability : ℝ)
      if base_prob = 0 then 0
      else
        let intensity_factor : ℝ := (source_cell.burn_intensity : ℝ)
        let moisture_factor : ℝ := 1 - (target_cell.moisture : ℝ)
        let fuel_factor : ℝ := (target_cell.fuel_load : ℝ)
        let temp_factor : ℝ := 1 + ((cond.temperature : ℝ) - 20) * 0.02
        let humidity_factor : ℝ := 1 - ((cond.humidity : ℝ) - 50) * 0.01
        let rain_factor : ℝ := 1 - (cond.rain_probability : ℝ) * 0.8
        let wind_effect :=
          calculateWindEffect cond source_row source_col target_row target_col
        let total_probability :=
          base_prob * intensity_factor * moisture_factor * fuel_factor *
            temp_factor * humidity_factor * rain_factor * wind_effect
        min 1 (max 0 total_probability)

/-- The neighbor loop of `_update_burning_cell`: for each neighbor, one
random draw is consumed; on success the neighbor is set Burning with
attenuated intensity and `burn_duration = 1`, and is appended to the
newly-burning list.  `source` is the (already updated) burning cell. -/
noncomputable def spreadLoop (cond : EnvironmentalConditions) (rand : ℕ → ℚ)
    (source : CellState) (row col : ℕ) :
    List (ℕ × ℕ) → Grid → List (ℕ × ℕ) → ℕ → Grid × List (ℕ × ℕ) × ℕ
  | [], g, newly, k => (g, newly, k)
  | q :: rest, g, newly, k =>
    let neighbor_cell := g q.1 q.2
    let spread_prob := calculateSpreadProbability cond source neighbor_cell
      (row : ℤ) (col : ℤ) (q.1 : ℤ) (q.2 : ℤ)
    if ((rand k : ℚ) : ℝ) < spread_prob then
      let ignited : CellState :=
        { neighbor_cell with
          burn_state := BurnState.burning,
          burn_intensity := min 1 (source.burn_intensity * 0.8),
          burn_duration := 1 }
      spreadLoop cond rand source row col rest (setCell g q.1 q.2 ignited)
        (newly ++ [q]) (k + 1)
    else spreadLoop cond rand source row col rest g newly (k + 1)

/-- The `_update_burning_cell(cell, row, col)`: consume fuel, heat up, dry out,
age, attempt spread to each in-bounds Moore neighbor, then burn out if the
duration or fuel threshold is reached.  Returns the updated grid, the list
of newly ignited positions and the advanced random-stream counter. -/
noncomputable def updateBurningCell (n : ℕ) (cond : EnvironmentalConditions)
    (rand : ℕ → ℚ) (g : Grid) (k : ℕ) (row col : ℕ) :
    Grid × List (ℕ × ℕ) × ℕ :=
  let cell := g row col
  let terrain_params := terrainFireParamsGet cell.terrain_type
  let fuel_consumption := terrain_params.fuel_consumption_rate * cell.burn_intensity
  let heat_gen := terrain_params.heat_generation * cell.burn_intensity
  let moisture_loss := terrain_params.moisture_loss_rate * cell.burn_intensity
  let cell1 : CellState :=
    { cell with
      fuel_load := max 0 (cell.fuel_load - fuel_consumption),
      temperature := min 1000 (cell.temperature + heat_gen * 50),
      moisture := max 0 (cell.moisture - moisture_loss),
      burn_duration := cell.burn_duration + 1 }
  let g1 := setCell g row col cell1
  let spread := spreadLoop cond rand cell1 row col (getNeighbors n row col) g1 [] k
  let g2 := spread.1
  let newly := spread.2.1
  let k2 := spread.2.2
  if cell1.burn_duration ≥ terrain_params.max_burn_duration ∨ cell1.fuel_load ≤ 0.1 then
    let burnt : CellState :=
      { cell1 with
        burn_state := BurnState.burned,
        burn_intensity := 0,
        temperature := cond.temperature }
    (setCell g2 row col burnt, newly, k2)
  else (g2, newly, k2)

/-- The snapshot taken at the start of `step()`: all currently burning
positions, in row-major order. -/
def burningCells (e : Engine) : List (ℕ × ℕ) :=
  (List.range e.grid_size).flatMap (fun r =>
    (List.range e.grid_size).filterMap (fun c =>
      if (e.grid r c).burn_state = BurnState.burning then some (r, c) else none))

/-- The update loop of `step()`: process each snapshotted burning cell in
order, threading the grid, the newly-ignited list and the random counter. -/
noncomputable def foldUpdates (n : ℕ) (cond : EnvironmentalConditions)
    (rand : ℕ → ℚ) :
    List (ℕ × ℕ) → Grid → List (ℕ × ℕ) → ℕ → Grid × List (ℕ × ℕ) × ℕ
  | [], g, newly, k => (g, newly, k)
  | p :: rest, g, newly, k =>
    let upd := updateBurningCell n cond rand g k p.1 p.2
    foldUpdates n cond rand rest upd.1 (newly ++ upd.2.1) upd.2.2

/-- The dictionary returned by `step()`. -/
structure StepResult where
  tick : ℕ
  burning_cells : ℕ
  newly_ignited : ℕ
  statistics : Stats
  is_active : Bool
deriving DecidableEq

/-- The `step()`: increment the tick counter, snapshot the burning cells, update
each of them (mutating the shared grid), and report the tick summary.
`rand`/`k` model the global random stream and its current position. -/
noncomputable def stepE (e : Engine) (rand : ℕ → ℚ) (k : ℕ) :
    Engine × StepResult × ℕ :=
  let tick1 := e.tick_count + 1
  let snapshot := burningCells e
  let upd := foldUpdates e.grid_size e.conditions rand snapshot e.grid [] k
  let e1 : Engine := { e with tick_count := tick1, grid := upd.1 }
  let stats := calcStatistics e1
  (e1,
   { tick := tick1,
     burning_cells := snapshot.length,
     newly_ignited := upd.2.1.length,
     statistics := stats,
     is_active := snapshot.length > 0 },
   upd.2.2)

/-! ## Spec-side definitions (for the refinement claim about the
spread-probability formula), written from the specification's words. -/

/-- Clamp to `[0, 1]`, in the form the source uses (`min(1.0, max(0.0, p))`). -/
noncomputable def clamp01 (x : ℝ) : ℝ := min 1 (max 0 x)

/-- Cosine similarity of two integer vectors on the (row, col) grid:
dot product over the product of Euclidean norms. -/
noncomputable def cosineSimilarity (d w : ℤ × ℤ) : ℝ :=
  ((d.1 * w.1 + d.2 * w.2 : ℤ) : ℝ) /
    (Real.sqrt ((d.1 * d.1 + d.2 * d.2 : ℤ) : ℝ) *
     Real.sqrt ((w.1 * w.1 + w.2 * w.2 : ℤ) : ℝ))

/-- The spec's wind factor: `1 + alignment * min(1, wind_speed/50) * 0.5`,
floored at `0.1`, where `alignment` is the cosine similarity between the
source-to-target direction `d` and the 8-point wind vector. -/
noncomputable def windEffectSpec (cond : EnvironmentalConditions) (d : ℤ × ℤ) : ℝ :=
  max 0.1 (1 + cosineSimilarity d (windDirections cond.wind_direction) *
    min 1 ((cond.wind_speed : ℝ) / 50) * 0.5)

/-- The spread-probability formula exactly as the specification states it:
zero for a non-Unburned, fuel-less, non-flammable or zero-base target, and
otherwise the clamped product of base probability, source intensity, target
dryness, target fuel, the three weather factors and the wind effect. -/
noncomputable def spreadProbabilitySpec (cond : EnvironmentalConditions)
    (source_cell target_cell : CellState)
    (source_row source_col target_row target_col : ℤ) : ℝ :=
  let target_params := terrainFireParamsGet target_cell.terrain_type
  if target_cell.burn_state ≠ BurnState.unburned ∨ target_cell.fuel_load ≤ 0 ∨
      target_params.is_flammable = false ∨ target_params.spread_probability = 0 then 0
  else
    let temp_factor : ℝ := 1 + ((cond.temperature : ℝ) - 20) * 0.02
    let humidity_factor : ℝ := 1 - ((cond.humidity : ℝ) - 50) * 0.01
    let rain_factor : ℝ := 1 - (cond.rain_probability : ℝ) * 0.8
    clamp01 ((target_params.spread_probability : ℝ) *
      (source_cell.burn_intensity : ℝ) * (1 - (target_cell.moisture : ℝ)) *
      (target_cell.fuel_load : ℝ) * temp_factor * humidity_factor * rain_factor *
      windEffectSpec cond (target_row - source_row, target_col - source_col))

/-! ## Operation sequences over the engine (for the non-flammable invariant). -/

/-- One external operation on the engine. `step` carries the random stream it
consumes (the Python global RNG, made explicit). -/
inductive Op where
  | initGrid (tg : List (List TerrainData))
  | ignite (row col : ℤ) (intensity : ℚ)
  | step (rand : ℕ → ℚ)
  | setEnv (u : EnvUpdate)
  | reset

/-- Apply one operation.  A failed initialization (Python `IndexError`)
leaves the engine as it was; the cells it would have built are all Unburned,
so this abstraction is sound for burn-state invariants. -/
noncomputable def applyOp (e : Engine) : Op → Engine
  | Op.initGrid tg => (initFromTerrainGrid e tg).getD e
  | Op.ignite row col i => (igniteCell e row col i).1
  | Op.step rand => (stepE e rand 0).1
  | Op.setEnv u => setEnvironmentalConditions e u
  | Op.reset => resetEngine e

/-- Apply a sequence of operations from left to right. -/
noncomputable def applyOps (e : Engine) : List Op → Engine
  | [] => e
  | op :: rest => applyOps (applyOp e op) rest

/-- A step operation is well formed when its random stream only produces
values in `[0, 1)`, as Python's `random.random()` does.  The lower bound is
what the invariance proofs use. -/
def opWF : Op → Prop
  | Op.step rand => ∀ m, 0 ≤ rand m
  | _ => True

/-- Chebyshev distance between two grid positions. -/
def cheb (p q : ℕ × ℕ) : ℕ :=
  max ((p.1 : ℤ) - (q.1 : ℤ)).natAbs ((p.2 : ℤ) - (q.2 : ℤ)).natAbs

/-! ## Helper lemmas -/

/-- The source's wind-effect computation agrees with the spec's
cosine-similarity formulation. -/
theorem windEffect_eq_spec (cond : EnvironmentalConditions) (fr fc tr tc : ℤ) :
    calculateWindEffect cond fr fc tr tc = windEffectSpec cond (tr - fr, tc - fc) := by
  unfold calculateWindEffect windEffectSpec cosineSimilarity
  cases h : cond.wind_direction <;>
    simp only [windDirections] <;>
    rw [if_neg (by decide), div_div]

/-! ## Claim theorems -/

/-- C2.  Spread probability: the source's `_calculate_spread_probability`
(with its early-return structure) computes exactly the specification's
formula: zero when the target is not Unburned, has no fuel, is
non-flammable or has zero base spread probability, and otherwise the
`[0,1]`-clamped product of the terrain base probability, source intensity,
target dryness `(1 - moisture)`, target fuel load, the three weather
factors and the cosine-similarity wind effect. -/
theorem c2_spread_probability_formula (cond : EnvironmentalConditions)
    (source_cell target_cell : CellState)
    (source_row source_col target_row target_col : ℤ) :
    calculateSpreadProbability cond source_cell target_cell
      source_row source_col target_row target_col =
    spreadProbabilitySpec cond source_cell target_cell
      source_row source_col target_row target_col := by
  simp only [calculateSpreadProbability, spreadProbabilitySpec, clamp01,
    windEffect_eq_spec]
  by_cases h1 : target_cell.burn_state ≠ BurnState.unburned ∨ target_cell.fuel_load ≤ 0
  · rw [if_pos h1, if_pos (h1.imp id Or.inl)]
  · by_cases h2 : (terrainFireParamsGet target_cell.terrain_type).is_flammable = false
    · rw [if_neg h1, if_pos h2, if_pos (Or.inr (Or.inr (Or.inl h2)))]
    · by_cases h3 : ((terrainFireParamsGet target_cell.terrain_type).spread_probability : ℝ) = 0
      · rw [if_neg h1, if_neg h2, if_pos h3,
          if_pos (Or.inr (Or.inr (Or.inr (by exact_mod_cast h3))))]
      · have h4 : ¬(target_cell.burn_state ≠ BurnState.unburned ∨
            target_cell.fuel_load ≤ 0 ∨
            (terrainFireParamsGet target_cell.terrain_type).is_flammable = false ∨
            (terrainFireParamsGet target_cell.terrain_type).spread_probability = 0) := by
          push_neg
          push_neg at h1
          refine ⟨h1.1, h1.2, h2, ?_⟩
          intro heq
          exact h3 (by exact_mod_cast heq)
        rw [if_neg h1, if_neg h2, if_neg h3, if_neg h4]

/-- Characterization of the statistics accumulation loop, for an arbitrary
starting accumulator. -/
theorem statsFold_go (cells : List CellState) (u bg bd : ℕ) (ti tt tf : ℚ) :
    cells.foldl
      (fun acc cell =>
        let (u, bg, bd, ti, tt, tf) := acc
        if cell.burn_state = BurnState.unburned then
          (u + 1, bg, bd, ti, tt + cell.temperature, tf + cell.fuel_load)
        else if cell.burn_state = BurnState.burning then
          (u, bg + 1, bd, ti + cell.burn_intensity, tt + cell.temperature,
           tf + cell.fuel_load)
        else
          (u, bg, bd + 1, ti, tt + cell.temperature, tf + cell.fuel_load))
      (u, bg, bd, ti, tt, tf) =
    (u + (cells.filter (fun c => c.burn_state = BurnState.unburned)).length,
     bg + (cells.filter (fun c => c.burn_state = BurnState.burning)).length,
     bd + (cells.filter (fun c => c.burn_state ≠ BurnState.unburned ∧
            c.burn_state ≠ BurnState.burning)).length,
     ti + ((cells.filter (fun c => c.burn_state = BurnState.burning)).map
            CellState.burn_intensity).sum,
     tt + (cells.map CellState.temperature).sum,
     tf + (cells.map CellState.fuel_load).sum) := by
  induction cells generalizing u bg bd ti tt tf with
  | nil => simp
  | cons c rest ih =>
    by_cases hc1 : c.burn_state = BurnState.unburned
    · simp [hc1, ih, add_assoc, add_comm 1]
    · by_cases hc2 : c.burn_state = BurnState.burning
      · simp [hc1, hc2, ih, add_assoc, add_comm 1]
      · simp [hc1, hc2, ih, add_assoc, add_comm 1]

/-- The row-major cell list has exactly `grid_size * grid_size` entries. -/
theorem cellList_length (e : Engine) :
    (cellList e).length = e.grid_size * e.grid_size := by
  simp [cellList, Function.comp_def]

/-- The three burn-state filters partition any cell list. -/
theorem filter_burnstate_partition (cells : List CellState) :
    (cells.filter (fun c => c.burn_state = BurnState.unburned)).length +
    (cells.filter (fun c => c.burn_state = BurnState.burning)).length +
    (cells.filter (fun c => c.burn_state ≠ BurnState.unburned ∧
        c.burn_state ≠ BurnState.burning)).length = cells.length := by
  induction cells with
  | nil => simp
  | cons c rest ih =>
    rcases hc : c.burn_state <;> simp [hc] at ih ⊢ <;> omega

/-- C8.  Statistics purity, idempotence and conservation: the aggregate
statistics read only the grid (hence two consecutive calls without an
intervening tick agree); the three burn-state counts always sum to
`grid_size²`; `avg_intensity` is the mean burn intensity over Burning cells
(0 when none are burning); `avg_temperature` and `fuel_remaining` are means
over all cells. -/
theorem c8_statistics_pure_idempotent_conserved (e : Engine)
    (h : 0 < e.grid_size) :
    (∀ t1 t2 c1 c2, calcStatistics ⟨e.grid_size, e.grid, t1, c1⟩ =
        calcStatistics ⟨e.grid_size, e.grid, t2, c2⟩) ∧
    (calcStatistics e).unburned + (calcStatistics e).burning +
      (calcStatistics e).burned = e.grid_size ^ 2 ∧
    ((calcStatistics e).burning = 0 → (calcStatistics e).avg_intensity = 0) ∧
    ((calcStatistics e).burning ≠ 0 → (calcStatistics e).avg_intensity =
      (((cellList e).filter (fun c => c.burn_state = BurnState.burning)).map
        CellState.burn_intensity).sum / (((calcStatistics e).burning : ℕ) : ℚ)) ∧
    (calcStatistics e).avg_temperature =
      ((cellList e).map CellState.temperature).sum / ((e.grid_size ^ 2 : ℕ) : ℚ) ∧
    (calcStatistics e).fuel_remaining =
      ((cellList e).map CellState.fuel_load).sum / ((e.grid_size ^ 2 : ℕ) : ℚ) := by
  have hfold := statsFold_go (cellList e) 0 0 0 0 0 0
  simp only [zero_add] at hfold
  refine ⟨fun t1 t2 c1 c2 => rfl, ?_, ?_, ?_, ?_, ?_⟩ <;>
    simp only [calcStatistics, statsFold] at hfold ⊢ <;>
    rw [hfold] <;>
    simp only [gt_iff_lt, pow_two, Nat.cast_mul]
  · rw [← cellList_length e, ← filter_burnstate_partition (cellList e)]
  · intro hbg
    rw [if_neg (by omega)]
  · intro hbg
    rw [if_pos (by omega)]

/-- Witness for C8 at a concrete 1×1 engine. -/
theorem c8_statistics_witness :
    0 < (mkEngine 1).grid_size ∧
    (calcStatistics (mkEngine 1)).unburned + (calcStatistics (mkEngine 1)).burning +
      (calcStatistics (mkEngine 1)).burned = (mkEngine 1).grid_size ^ 2 :=
  ⟨by decide,
   (c8_statistics_pure_idempotent_conserved (mkEngine 1) (by decide)).2.1⟩

/-- The cell record produced by a successful direct ignition: Burning with
intensity `min 1 intensity` and `burn_duration = 1`, other fields kept. -/
def ignitedCell (cell : CellState) (intensity : ℚ) : CellState :=
  { cell with burn_state := BurnState.burning,
              burn_intensity := min 1 intensity,
              burn_duration := 1 }

/-- C3.  Ignition: `ignite_cell(row, col, intensity)` succeeds exactly when
the position is in bounds, the terrain is flammable, the cell is Unburned
with positive fuel, and the intensity exceeds
`moisture * ignition_threshold`; on failure the engine is unchanged, and on
success only the target cell changes, becoming Burning with intensity
`min 1 intensity` and `burn_duration = 1`. -/
theorem c3_ignite_cell_spec (e : Engine) (row col : ℤ) (intensity : ℚ) :
    ((igniteCell e row col intensity).2 = true ↔
      (isValidPosition e.grid_size row col = true ∧
       (terrainFireParamsGet (e.grid row.toNat col.toNat).terrain_type).is_flammable = true ∧
       (e.grid row.toNat col.toNat).burn_state = BurnState.unburned ∧
       (e.grid row.toNat col.toNat).fuel_load > 0 ∧
       intensity > (e.grid row.toNat col.toNat).moisture *
         (terrainFireParamsGet (e.grid row.toNat col.toNat).terrain_type).ignition_threshold)) ∧
    ((igniteCell e row col intensity).2 = false →
      (igniteCell e row col intensity).1 = e) ∧
    ((igniteCell e row col intensity).2 = true →
      (igniteCell e row col intensity).1 =
        { e with grid := setCell e.grid row.toNat col.toNat (ignitedCell (e.grid row.toNat col.toNat) intensity) }) := by
  unfold igniteCell
  by_cases hv : isValidPosition e.grid_size row col
  · by_cases hf : (terrainFireParamsGet (e.grid row.toNat col.toNat).terrain_type).is_flammable = false
    · simp [hv, hf]
    · by_cases hu : (e.grid row.toNat col.toNat).burn_state = BurnState.unburned ∧
          (e.grid row.toNat col.toNat).fuel_load > 0
      · by_cases hi : intensity > (e.grid row.toNat col.toNat).moisture *
            (terrainFireParamsGet (e.grid row.toNat col.toNat).terrain_type).ignition_threshold
        · simp [hv, hf, hu, hi, ignitedCell]
        · simp [hv, hf, hu, hi]
      · simp [hv, hf, hu]
        tauto
  · simp at hv
    simp [hv]

/-- A 10×10 all-grass engine as produced by initialization (grass default
moisture 0.5, full fuel, Unburned, ambient temperature 25). -/
def grassEngine : Engine :=
  { grid_size := 10,
    grid := fun _ _ =>
      { terrain_type := "grass", burn_state := BurnState.unburned,
        burn_intensity := 0, burn_duration := 0, moisture := 0.5,
        fuel_load := 1, temperature := 25 },
    tick_count := 0,
    conditions := {} }

/-- Witness for C3: on default grass (moisture 0.5, threshold 0.2),
intensity 0.05 is rejected leaving the engine unchanged, and intensity 1.0
succeeds. -/
theorem c3_ignite_cell_witness :
    (igniteCell grassEngine 5 5 0.05).1 = grassEngine ∧
    (igniteCell grassEngine 5 5 1).2 = true :=
  ⟨(c3_ignite_cell_spec grassEngine 5 5 0.05).2.1
     (by norm_num [igniteCell, grassEngine, isValidPosition,
           terrainFireParamsGet_grass, grassParams]),
   (c3_ignite_cell_spec grassEngine 5 5 1).1.mpr
     (by norm_num [grassEngine, isValidPosition,
           terrainFireParamsGet_grass, grassParams])⟩

/-- A 1×1 all-water engine, obtained through initialization. -/
def waterEngine1 : Engine :=
  (initFromTerrainGrid (mkEngine 1) [[{ terrain_type := "water" }]]).getD (mkEngine 1)

/-- A 1×1 all-desert engine, obtained through initialization. -/
def desertEngine1 : Engine :=
  (initFromTerrainGrid (mkEngine 1) [[{ terrain_type := "desert" }]]).getD (mkEngine 1)

/-- C6 counterexample.  `reset()` does NOT restore the initialization
values: on a water cell (non-flammable) it sets `fuel_load = 1.0`, not 0,
and on a desert cell it sets `moisture = 0.5` although the initialization
table gives desert 0.2. -/
theorem c6_reset_counterexample :
    (terrainFireParamsGet ((waterEngine1.grid 0 0).terrain_type)).is_flammable = false ∧
    ((resetEngine waterEngine1).grid 0 0).fuel_load = 1 ∧
    ¬ ((resetEngine waterEngine1).grid 0 0).fuel_load = 0 ∧
    (desertEngine1.grid 0 0).moisture = 0.2 ∧
    ((resetEngine desertEngine1).grid 0 0).moisture = 0.5 ∧
    ¬ ((resetEngine desertEngine1).grid 0 0).moisture = 0.2 := by
  refine ⟨rfl, rfl, ?_, rfl, rfl, ?_⟩
  · rw [show ((resetEngine waterEngine1).grid 0 0).fuel_load = 1 from rfl]
    norm_num
  · rw [show ((resetEngine desertEngine1).grid 0 0).moisture = 0.5 from rfl]
    norm_num

/-- C6 (amended).  After `reset()`: `tick_count = 0` and every in-bounds
cell is Unburned with zero intensity and duration, ambient temperature,
unchanged terrain, `fuel_load = 1.0` for ALL cells (water included), and
moisture from reset's own table: water 1.0; urban/bare_ground 0.2; every
other terrain (desert, forest, shrub, grass, agriculture, beach, unknown)
0.5. -/
theorem c6_reset_postcondition_amended (e : Engine) (r c : ℕ)
    (hr : r < e.grid_size) (hc : c < e.grid_size) :
    (resetEngine e).tick_count = 0 ∧
    (resetEngine e).grid r c =
      { e.grid r c with
        burn_state := BurnState.unburned,
        burn_intensity := 0,
        burn_duration := 0,
        fuel_load := 1,
        temperature := e.conditions.temperature,
        moisture :=
          if (e.grid r c).terrain_type = "water" then 1
          else if (e.grid r c).terrain_type = "urban" ∨
              (e.grid r c).terrain_type = "bare_ground" then 0.2
          else 0.5 } := by
  refine ⟨rfl, ?_⟩
  simp only [resetEngine]
  rw [if_pos ⟨hr, hc⟩]

/-- Witness for the amended C6 at the concrete 1×1 desert engine. -/
theorem c6_reset_witness :
    0 < desertEngine1.grid_size ∧
    ((resetEngine desertEngine1).grid 0 0).moisture = 0.5 := by
  refine ⟨by decide, ?_⟩
  have h := (c6_reset_postcondition_amended desertEngine1 0 0 (by decide) (by decide)).2
  have hd : (desertEngine1.grid 0 0).terrain_type = "desert" := rfl
  rw [h]
  simp [hd]

/-- Membership in the burning-cells snapshot is exactly being an in-bounds
Burning cell. -/
theorem mem_burningCells {e : Engine} {p : ℕ × ℕ} :
    p ∈ burningCells e ↔
      p.1 < e.grid_size ∧ p.2 < e.grid_size ∧
        (e.grid p.1 p.2).burn_state = BurnState.burning := by
  simp only [burningCells, List.mem_flatMap, List.mem_filterMap, List.mem_range]
  constructor
  · rintro ⟨r, hr, c, hc, hcell⟩
    by_cases hb : (e.grid r c).burn_state = BurnState.burning
    · rw [if_pos hb] at hcell
      cases hcell
      exact ⟨hr, hc, hb⟩
    · rw [if_neg hb] at hcell
      cases hcell
  · rintro ⟨h1, h2, h3⟩
    exact ⟨p.1, h1, p.2, h2, by rw [if_pos h3]⟩

/-- If no in-bounds cell is Burning, the snapshot is empty. -/
theorem burningCells_nil (e : Engine)
    (h : ∀ r c, r < e.grid_size → c < e.grid_size →
      (e.grid r c).burn_state ≠ BurnState.burning) :
    burningCells e = [] := by
  rw [List.eq_nil_iff_forall_not_mem]
  intro p hp
  rw [mem_burningCells] at hp
  exact h p.1 p.2 hp.1 hp.2.1 hp.2.2

/-- C10.  A tick with no fire is a no-op on the grid: when no cell is
Burning, `step()` leaves the grid, the grid size, the conditions and the
random stream position unchanged, increments only `tick_count`, and reports
`burning_cells = 0`, `newly_ignited = 0`, `is_active = false`. -/
theorem c10_step_without_fire_is_noop (e : Engine) (rand : ℕ → ℚ) (k : ℕ)
    (h : ∀ r c, r < e.grid_size → c < e.grid_size →
      (e.grid r c).burn_state ≠ BurnState.burning) :
    (stepE e rand k).1.grid = e.grid ∧
    (stepE e rand k).1.grid_size = e.grid_size ∧
    (stepE e rand k).1.conditions = e.conditions ∧
    (stepE e rand k).1.tick_count = e.tick_count + 1 ∧
    (stepE e rand k).2.1.burning_cells = 0 ∧
    (stepE e rand k).2.1.newly_ignited = 0 ∧
    (stepE e rand k).2.1.is_active = false ∧
    (stepE e rand k).2.2 = k := by
  have hnil := burningCells_nil e h
  simp [stepE, hnil, foldUpdates]

/-- Witness for C10 on the 10×10 all-grass engine (nothing burning). -/
theorem c10_step_without_fire_witness :
    (stepE grassEngine (fun _ => 0) 0).1.grid = grassEngine.grid ∧
    (stepE grassEngine (fun _ => 0) 0).2.1.is_active = false := by
  have h := c10_step_without_fire_is_noop grassEngine (fun _ => 0) 0
    (by intro r c _ _; simp [grassEngine])
  exact ⟨h.1, h.2.2.2.2.2.2.1⟩

/-- The `traverseOption` succeeds iff every element succeeds. -/
theorem traverseOption_isSome {α β : Type} (f : α → Option β) :
    ∀ l : List α, (traverseOption f l).isSome = true ↔
      ∀ a ∈ l, (f a).isSome = true := by
  intro l
  induction l with
  | nil => simp [traverseOption]
  | cons x xs ih =>
    rw [traverseOption]
    cases hfx : f x with
    | none => simp [hfx]
    | some y =>
      cases hxs : traverseOption f xs with
      | none =>
        rw [hxs] at ih
        have hnot : ¬ ∀ a ∈ xs, (f a).isSome = true :=
          fun hh => Bool.noConfusion (ih.mpr hh)
        constructor
        · intro hcontra
          exact Bool.noConfusion hcontra
        · intro hall
          exact absurd (fun a ha => hall a (List.mem_cons_of_mem x ha)) hnot
      | some ys =>
        rw [hxs] at ih
        have hall : ∀ a ∈ xs, (f a).isSome = true := ih.mp rfl
        constructor
        · intro _ a ha
          rcases List.mem_cons.mp ha with h | h
          · rw [h, hfx]; rfl
          · exact hall a h
        · intro _
          rfl

/-- The `traverseOption` preserves length. -/
theorem traverseOption_length {α β : Type} {f : α → Option β} :
    ∀ {l : List α} {ys : List β}, traverseOption f l = some ys →
      ys.length = l.length := by
  intro l
  induction l with
  | nil =>
    intro ys h
    rw [traverseOption] at h
    cases h
    rfl
  | cons x xs ih =>
    intro ys h
    rw [traverseOption] at h
    cases hfx : f x with
    | none => rw [hfx] at h; cases h
    | some y =>
      rw [hfx] at h
      cases hxs : traverseOption f xs with
      | none => rw [hxs] at h; cases h
      | some zs =>
        rw [hxs] at h
        cases h
        simp [ih hxs]

/-- Every output element of a successful `traverseOption` is the image of
some input element. -/
theorem traverseOption_mem {α β : Type} {f : α → Option β} :
    ∀ {l : List α} {ys : List β}, traverseOption f l = some ys →
      ∀ y ∈ ys, ∃ a ∈ l, f a = some y := by
  intro l
  induction l with
  | nil =>
    intro ys h
    rw [traverseOption] at h
    cases h
    simp
  | cons x xs ih =>
    intro ys h
    rw [traverseOption] at h
    cases hfx : f x with
    | none => rw [hfx] at h; cases h
    | some y =>
      rw [hfx] at h
      cases hxs : traverseOption f xs with
      | none => rw [hxs] at h; cases h
      | some zs =>
        rw [hxs] at h
        cases h
        intro z hz
        rcases List.mem_cons.mp hz with hz | hz
        · exact ⟨x, List.mem_cons_self x xs, hz ▸ hfx⟩
        · rcases ih hxs z hz with ⟨a, ha, hfa⟩
          exact ⟨a, List.mem_cons_of_mem x ha, hfa⟩

/-- The `traverseOption` only depends on the function's values on the list. -/
theorem traverseOption_congr {α β : Type} {f g : α → Option β} :
    ∀ {l : List α}, (∀ a ∈ l, f a = g a) →
      traverseOption f l = traverseOption g l := by
  intro l
  induction l with
  | nil => intro _; rfl
  | cons x xs ih =>
    intro h
    rw [traverseOption, traverseOption, h x (List.mem_cons_self x xs),
      ih (fun a ha => h a (List.mem_cons_of_mem x ha))]

/-- A 3×3 terrain classification (oversized for a 2×2 engine). -/
def oversizedTG : List (List TerrainData) :=
  List.replicate 3 (List.replicate 3 { terrain_type := "grass" })

/-- A non-square 2×3 terrain classification. -/
def nonSquareTG : List (List TerrainData) :=
  List.replicate 2 (List.replicate 3 { terrain_type := "grass" })

/-- A 1×1 terrain classification (undersized for a 2×2 engine). -/
def undersizedTG : List (List TerrainData) :=
  [[{ terrain_type := "grass" }]]

/-- C7 counterexample.  `initialize_from_terrain_grid` does NOT fail on a
dimension mismatch: a 2×2 engine initializes successfully from an oversized
3×3 grid (silently reading only the top-left block) and from a non-square
2×3 grid; an undersized grid fails with an uncaught `IndexError` (modelled
as `none`), not a typed `InvalidDimension` validation error. -/
theorem c7_dimension_validation_counterexample :
    (initFromTerrainGrid (mkEngine 2) oversizedTG).isSome = true ∧
    (initFromTerrainGrid (mkEngine 2) nonSquareTG).isSome = true ∧
    (initFromTerrainGrid (mkEngine 2) undersizedTG).isSome = false := by
  refine ⟨?_, ?_, ?_⟩ <;> rfl

/-- C7 (amended).  Initialization performs no dimension validation: it
succeeds exactly when `terrain_grid[r][c]` exists for every
`r, c < grid_size` (an undersized grid raises `IndexError`, modelled as
`none`), and its result depends only on the top-left
`grid_size × grid_size` block — an oversized grid is silently truncated. -/
theorem c7_init_no_dimension_validation (e : Engine) (tg : List (List TerrainData)) :
    ((initFromTerrainGrid e tg).isSome = true ↔
      ∀ r < e.grid_size, ∀ c < e.grid_size,
        ((tg.get? r).bind (fun row => row.get? c)).isSome = true) ∧
    initFromTerrainGrid e tg =
      initFromTerrainGrid e ((tg.take e.grid_size).map
        (fun row => row.take e.grid_size)) := by
  constructor
  · simp only [initFromTerrainGrid, Option.isSome_map', traverseOption_isSome,
      List.mem_range]
  · simp only [initFromTerrainGrid]
    have hcongr : traverseOption (fun r =>
        traverseOption (fun c =>
          ((tg.get? r).bind (fun row => row.get? c)).map
            (mkCellFromTerrain e.conditions)) (List.range e.grid_size))
        (List.range e.grid_size) =
      traverseOption (fun r =>
        traverseOption (fun c =>
          ((((tg.take e.grid_size).map (fun row => row.take e.grid_size)).get? r).bind
            (fun row => row.get? c)).map
            (mkCellFromTerrain e.conditions)) (List.range e.grid_size))
        (List.range e.grid_size) := by
      apply traverseOption_congr
      intro r hr
      apply traverseOption_congr
      intro c hc
      rw [List.mem_range] at hr hc
      rw [List.get?_map, List.get?_take hr]
      cases htg : tg.get? r with
      | none => rfl
      | some row =>
        simp only [Option.map_some', Option.some_bind]
        rw [List.get?_take hc]
    rw [hcongr]

/-- Witness for the amended C7 at a concrete matching-size input. -/
theorem c7_init_witness :
    (initFromTerrainGrid (mkEngine 1) [[{ terrain_type := "grass" }]]).isSome = true :=
  (c7_init_no_dimension_validation (mkEngine 1) [[{ terrain_type := "grass" }]]).1.mpr
    (by decide)

theorem setCell_same (g : Grid) (r c : ℕ) (x : CellState) :
    setCell g r c x r c = x := if_pos ⟨rfl, rfl⟩

theorem setCell_other (g : Grid) (r c : ℕ) (x : CellState) (r' c' : ℕ)
    (h : ¬(r' = r ∧ c' = c)) : setCell g r c x r' c' = g r' c' := if_neg h

/-- Every position returned by `_get_neighbors` is in bounds, at Chebyshev
distance exactly 1 from the center, and distinct from the center. -/
theorem mem_getNeighbors {n r c : ℕ} {q : ℕ × ℕ}
    (hq : q ∈ getNeighbors n r c) :
    q.1 < n ∧ q.2 < n ∧ cheb q (r, c) = 1 ∧ ¬(q.1 = r ∧ q.2 = c) := by
  simp only [getNeighbors, List.mem_filterMap] at hq
  rcases hq with ⟨d, hd, hopt⟩
  simp only [mooreNeighbors, List.mem_cons, List.not_mem_nil, or_false] at hd
  by_cases hb : 0 ≤ (r : ℤ) + d.1 ∧ (r : ℤ) + d.1 < (n : ℤ) ∧
      0 ≤ (c : ℤ) + d.2 ∧ (c : ℤ) + d.2 < (n : ℤ)
  · rw [if_pos hb] at hopt
    obtain rfl := Option.some.inj hopt
    rcases hd with rfl | rfl | rfl | rfl | rfl | rfl | rfl | rfl <;>
      simp only [cheb] <;>
      refine ⟨by omega, by omega, by omega, by omega⟩
  · rw [if_neg hb] at hopt
    cases hopt

/-- The center is never its own neighbor. -/
theorem center_not_mem_getNeighbors {n r c : ℕ} :
    (r, c) ∉ getNeighbors n r c := by
  intro h
  exact (mem_getNeighbors h).2.2.2 ⟨rfl, rfl⟩

/-- The spread probability into a target that is not Unburned is zero. -/
theorem spreadProb_zero_of_not_unburned (cond : EnvironmentalConditions)
    (src tgt : CellState) (sr sc tr tc : ℤ)
    (h : tgt.burn_state ≠ BurnState.unburned) :
    calculateSpreadProbability cond src tgt sr sc tr tc = 0 := by
  rw [calculateSpreadProbability, if_pos (Or.inl h)]

/-- The spread probability into a non-flammable target is zero. -/
theorem spreadProb_zero_of_nonflammable (cond : EnvironmentalConditions)
    (src tgt : CellState) (sr sc tr tc : ℤ)
    (h : (terrainFireParamsGet tgt.terrain_type).is_flammable = false) :
    calculateSpreadProbability cond src tgt sr sc tr tc = 0 := by
  rw [calculateSpreadProbability]
  by_cases h1 : tgt.burn_state ≠ BurnState.unburned ∨ tgt.fuel_load ≤ 0
  · rw [if_pos h1]
  · rw [if_neg h1]
    simp [h]

/-- A nonnegative random draw never beats a zero probability. -/
theorem no_draw_below_zero (x : ℚ) (h : 0 ≤ x) : ¬ ((x : ℚ) : ℝ) < (0 : ℝ) := by
  push_neg
  exact_mod_cast h

/-- The spread loop writes only to positions in its worklist. -/
theorem spreadLoop_frame_not_mem (cond : EnvironmentalConditions)
    (rand : ℕ → ℚ) (src : CellState) (row col : ℕ) :
    ∀ (l : List (ℕ × ℕ)) (g : Grid) (newly : List (ℕ × ℕ)) (k : ℕ) (q : ℕ × ℕ),
      q ∉ l →
      (spreadLoop cond rand src row col l g newly k).1 q.1 q.2 = g q.1 q.2 := by
  intro l
  induction l with
  | nil =>
    intro g newly k q hq
    rw [spreadLoop]
  | cons p rest ih =>
    intro g newly k q hq
    have hqp : q ≠ p := fun h => hq (h ▸ List.mem_cons_self p rest)
    have hqrest : q ∉ rest := fun h => hq (List.mem_cons_of_mem p h)
    have hqp2 : ¬(q.1 = p.1 ∧ q.2 = p.2) := by
      intro hcontra
      exact hqp (Prod.ext hcontra.1 hcontra.2)
    simp only [spreadLoop]
    split
    · rw [ih _ _ _ q hqrest, setCell_other _ _ _ _ _ _ hqp2]
    · rw [ih _ _ _ q hqrest]

/-- If a cell satisfies a property that forces the spread probability into
it to be zero, a spread loop driven by nonnegative draws leaves it
unchanged. -/
theorem spreadLoop_frame_of_prob_zero (cond : EnvironmentalConditions)
    (rand : ℕ → ℚ) (src : CellState) (row col : ℕ)
    (h0 : ∀ m, 0 ≤ rand m) (P : CellState → Prop)
    (hP : ∀ tgt sr sc tr tc, P tgt →
      calculateSpreadProbability cond src tgt sr sc tr tc = 0) :
    ∀ (l : List (ℕ × ℕ)) (g : Grid) (newly : List (ℕ × ℕ)) (k : ℕ) (qr qc : ℕ),
      P (g qr qc) →
      (spreadLoop cond rand src row col l g newly k).1 qr qc = g qr qc := by
  intro l
  induction l with
  | nil =>
    intro g newly k qr qc hq
    rw [spreadLoop]
  | cons p rest ih =>
    intro g newly k qr qc hq
    by_cases hpq : p.1 = qr ∧ p.2 = qc
    · have hprob : calculateSpreadProbability cond src (g p.1 p.2)
          (row : ℤ) (col : ℤ) (p.1 : ℤ) (p.2 : ℤ) = 0 := by
        rw [hpq.1, hpq.2]
        exact hP _ _ _ _ _ hq
      simp only [spreadLoop, hprob]
      rw [if_neg (no_draw_below_zero (rand k) (h0 k))]
      exact ih _ _ _ _ _ hq
    · have hqp2 : ¬(qr = p.1 ∧ qc = p.2) := by
        intro hcontra
        exact hpq ⟨hcontra.1.symm, hcontra.2.symm⟩
      simp only [spreadLoop]
      split
      · rw [ih _ _ _ _ _ (by rw [setCell_other _ _ _ _ _ _ hqp2]; exact hq),
          setCell_other _ _ _ _ _ _ hqp2]
      · exact ih _ _ _ _ _ hq

/-- The spread loop never changes any cell's terrain type. -/
theorem spreadLoop_terrain (cond : EnvironmentalConditions)
    (rand : ℕ → ℚ) (src : CellState) (row col : ℕ) :
    ∀ (l : List (ℕ × ℕ)) (g : Grid) (newly : List (ℕ × ℕ)) (k : ℕ) (qr qc : ℕ),
      ((spreadLoop cond rand src row col l g newly k).1 qr qc).terrain_type =
        (g qr qc).terrain_type := by
  intro l
  induction l with
  | nil =>
    intro g newly k qr qc
    rw [spreadLoop]
  | cons p rest ih =>
    intro g newly k qr qc
    simp only [spreadLoop]
    split
    · rw [ih]
      by_cases hpq : qr = p.1 ∧ qc = p.2
      · rw [hpq.1, hpq.2, setCell_same]
      · rw [setCell_other _ _ _ _ _ _ hpq]
    · rw [ih]

/-- The per-tick transformation of a burning cell exactly as the claim
describes it: consume fuel, heat up (capped), dry out, age, and burn out
(Burned, zero intensity, ambient temperature) once the duration or the
fuel threshold is reached. -/
def burningCellAfterTick (cond : EnvironmentalConditions) (cell : CellState) : CellState :=
  let params := terrainFireParamsGet cell.terrain_type
  let fuel1 := max 0 (cell.fuel_load - params.fuel_consumption_rate * cell.burn_intensity)
  let temp1 := min 1000 (cell.temperature + params.heat_generation * cell.burn_intensity * 50)
  let moist1 := max 0 (cell.moisture - params.moisture_loss_rate * cell.burn_intensity)
  let dur1 := cell.burn_duration + 1
  if dur1 ≥ params.max_burn_duration ∨ fuel1 ≤ 0.1 then
    { cell with
      fuel_load := fuel1,
      temperature := cond.temperature,
      moisture := moist1,
      burn_duration := dur1,
      burn_state := BurnState.burned,
      burn_intensity := 0 }
  else
    { cell with
      fuel_load := fuel1,
      temperature := temp1,
      moisture := moist1,
      burn_duration := dur1 }

/-- The `_update_burning_cell` maps the cell it processes to exactly
`burningCellAfterTick` of its previous state (its neighbors never write
back into it). -/
theorem updateBurningCell_source (n : ℕ) (cond : EnvironmentalConditions)
    (rand : ℕ → ℚ) (g : Grid) (k : ℕ) (row col : ℕ) :
    (updateBurningCell n cond rand g k row col).1 row col =
      burningCellAfterTick cond (g row col) := by
  have hcnm := center_not_mem_getNeighbors (n := n) (r := row) (c := col)
  simp only [updateBurningCell, burningCellAfterTick]
  split
  · dsimp only
    rw [setCell_same]
  · dsimp only
    rw [spreadLoop_frame_not_mem _ _ _ _ _ _ _ _ _ _ hcnm, setCell_same]

/-- The `_update_burning_cell` writes only to its own cell and its neighbors. -/
theorem updateBurningCell_frame (n : ℕ) (cond : EnvironmentalConditions)
    (rand : ℕ → ℚ) (g : Grid) (k : ℕ) (row col : ℕ) (q : ℕ × ℕ)
    (hqc : ¬(q.1 = row ∧ q.2 = col)) (hqn : q ∉ getNeighbors n row col) :
    (updateBurningCell n cond rand g k row col).1 q.1 q.2 = g q.1 q.2 := by
  simp only [updateBurningCell]
  split
  · dsimp only
    rw [setCell_other _ _ _ _ _ _ hqc,
      spreadLoop_frame_not_mem _ _ _ _ _ _ _ _ _ _ hqn,
      setCell_other _ _ _ _ _ _ hqc]
  · dsimp only
    rw [spreadLoop_frame_not_mem _ _ _ _ _ _ _ _ _ _ hqn,
      setCell_other _ _ _ _ _ _ hqc]

/-- Any cell that becomes Burning during `_update_burning_cell` is the
processed cell's neighbor (the processed cell itself can only stay as it
was or become Burned). -/
theorem updateBurningCell_burning_provenance (n : ℕ)
    (cond : EnvironmentalConditions) (rand : ℕ → ℚ) (g : Grid) (k : ℕ)
    (row col : ℕ) (q : ℕ × ℕ)
    (hpost : ((updateBurningCell n cond rand g k row col).1 q.1 q.2).burn_state =
      BurnState.burning)
    (hpre : (g q.1 q.2).burn_state ≠ BurnState.burning) :
    q ∈ getNeighbors n row col := by
  by_contra hqn
  by_cases hqc : q.1 = row ∧ q.2 = col
  · rw [hqc.1, hqc.2] at hpost hpre
    rw [updateBurningCell_source] at hpost
    simp only [burningCellAfterTick] at hpost
    split at hpost
    · cases hpost
    · exact hpre hpost
  · rw [updateBurningCell_frame _ _ _ _ _ _ _ _ hqc hqn] at hpost
    exact hpre hpost

/-- With nonnegative draws, `_update_burning_cell` does not modify any other
cell that is not Unburned (the spread probability into it is zero). -/
theorem updateBurningCell_frame_not_unburned (n : ℕ)
    (cond : EnvironmentalConditions) (rand : ℕ → ℚ) (g : Grid) (k : ℕ)
    (row col : ℕ) (q : ℕ × ℕ) (h0 : ∀ m, 0 ≤ rand m)
    (hqc : ¬(q.1 = row ∧ q.2 = col))
    (hq : (g q.1 q.2).burn_state ≠ BurnState.unburned) :
    (updateBurningCell n cond rand g k row col).1 q.1 q.2 = g q.1 q.2 := by
  simp only [updateBurningCell]
  split
  · dsimp only
    rw [setCell_other _ _ _ _ _ _ hqc,
      spreadLoop_frame_of_prob_zero cond rand _ row col h0
        (fun tgt => tgt.burn_state ≠ BurnState.unburned)
        (fun tgt sr sc tr tc h => spreadProb_zero_of_not_unburned cond _ tgt sr sc tr tc h),
      setCell_other _ _ _ _ _ _ hqc]
    rw [setCell_other _ _ _ _ _ _ hqc]
    exact hq
  · dsimp only
    rw [spreadLoop_frame_of_prob_zero cond rand _ row col h0
        (fun tgt => tgt.burn_state ≠ BurnState.unburned)
        (fun tgt sr sc tr tc h => spreadProb_zero_of_not_unburned cond _ tgt sr sc tr tc h),
      setCell_other _ _ _ _ _ _ hqc]
    rw [setCell_other _ _ _ _ _ _ hqc]
    exact hq

/-- With nonnegative draws, `_update_burning_cell` on a flammable cell does
not modify any non-flammable cell. -/
theorem updateBurningCell_frame_nonflammable (n : ℕ)
    (cond : EnvironmentalConditions) (rand : ℕ → ℚ) (g : Grid) (k : ℕ)
    (row col : ℕ) (q : ℕ × ℕ) (h0 : ∀ m, 0 ≤ rand m)
    (hflamC : (terrainFireParamsGet (g row col).terrain_type).is_flammable = true)
    (hq : (terrainFireParamsGet (g q.1 q.2).terrain_type).is_flammable = false) :
    (updateBurningCell n cond rand g k row col).1 q.1 q.2 = g q.1 q.2 := by
  have hqc : ¬(q.1 = row ∧ q.2 = col) := by
    intro hctr
    rw [hctr.1, hctr.2, hflamC] at hq
    cases hq
  simp only [updateBurningCell]
  split
  · dsimp only
    rw [setCell_other _ _ _ _ _ _ hqc,
      spreadLoop_frame_of_prob_zero cond rand _ row col h0
        (fun tgt => (terrainFireParamsGet tgt.terrain_type).is_flammable = false)
        (fun tgt sr sc tr tc h => spreadProb_zero_of_nonflammable cond _ tgt sr sc tr tc h),
      setCell_other _ _ _ _ _ _ hqc]
    rw [setCell_other _ _ _ _ _ _ hqc]
    exact hq
  · dsimp only
    rw [spreadLoop_frame_of_prob_zero cond rand _ row col h0
        (fun tgt => (terrainFireParamsGet tgt.terrain_type).is_flammable = false)
        (fun tgt sr sc tr tc h => spreadProb_zero_of_nonflammable cond _ tgt sr sc tr tc h),
      setCell_other _ _ _ _ _ _ hqc]
    rw [setCell_other _ _ _ _ _ _ hqc]
    exact hq

/-- The `_update_burning_cell` never changes any cell's terrain type. -/
theorem updateBurningCell_terrain (n : ℕ) (cond : EnvironmentalConditions)
    (rand : ℕ → ℚ) (g : Grid) (k : ℕ) (row col : ℕ) (qr qc : ℕ) :
    ((updateBurningCell n cond rand g k row col).1 qr qc).terrain_type =
      (g qr qc).terrain_type := by
  simp only [updateBurningCell]
  by_cases hpq : qr = row ∧ qc = col
  · obtain ⟨h1, h2⟩ := hpq
    subst h1
    subst h2
    split
    · dsimp only
      rw [setCell_same]
    · dsimp only
      rw [spreadLoop_terrain, setCell_same]
  · split
    · dsimp only
      rw [setCell_other _ _ _ _ _ _ hpq, spreadLoop_terrain,
        setCell_other _ _ _ _ _ _ hpq]
    · dsimp only
      rw [spreadLoop_terrain, setCell_other _ _ _ _ _ _ hpq]

/-- An element of one snapshot row has that row index as first component. -/
theorem mem_burningRow {e : Engine} {r : ℕ} {p : ℕ × ℕ}
    (hp : p ∈ (List.range e.grid_size).filterMap (fun c =>
      if (e.grid r c).burn_state = BurnState.burning then some (r, c) else none)) :
    p.1 = r := by
  rcases List.mem_filterMap.mp hp with ⟨c, _, hopt⟩
  by_cases h1 : (e.grid r c).burn_state = BurnState.burning
  · rw [if_pos h1] at hopt
    obtain rfl := Option.some.inj hopt
    rfl
  · rw [if_neg h1] at hopt
    cases hopt

/-- The snapshot of burning cells contains no duplicate position. -/
theorem burningCells_nodup (e : Engine) : (burningCells e).Nodup := by
  rw [burningCells, List.nodup_flatMap]
  constructor
  · intro r _
    refine List.Nodup.filterMap ?_ (List.nodup_range _)
    intro c c' p hp hp'
    by_cases h1 : (e.grid r c).burn_state = BurnState.burning
    · rw [if_pos h1] at hp
      by_cases h2 : (e.grid r c').burn_state = BurnState.burning
      · rw [if_pos h2] at hp'
        obtain rfl := (Option.mem_some_iff.mp hp).symm
        have := Option.mem_some_iff.mp hp'
        exact ((Prod.mk.injEq r c r c').mp this.symm).2
      · rw [if_neg h2] at hp'
        cases hp'
    · rw [if_neg h1] at hp
      cases hp
  · refine List.Pairwise.imp ?_ (List.nodup_range _)
    intro r r' hne p hp hp'
    exact hne (by rw [← mem_burningRow hp, ← mem_burningRow hp'])

/-- One-step unfolding plus append law for the burning-cell update loop. -/
theorem foldUpdates_append (n : ℕ) (cond : EnvironmentalConditions)
    (rand : ℕ → ℚ) :
    ∀ (l1 l2 : List (ℕ × ℕ)) (g : Grid) (newly : List (ℕ × ℕ)) (k : ℕ),
      foldUpdates n cond rand (l1 ++ l2) g newly k =
        foldUpdates n cond rand l2
          (foldUpdates n cond rand l1 g newly k).1
          (foldUpdates n cond rand l1 g newly k).2.1
          (foldUpdates n cond rand l1 g newly k).2.2 := by
  intro l1
  induction l1 with
  | nil =>
    intro l2 g newly k
    rfl
  | cons p rest ih =>
    intro l2 g newly k
    simp only [List.cons_append, foldUpdates]
    exact ih l2 _ _ _

/-- Any cell that is Burning after the update loop was either Burning before
it or is the Moore neighbor of some processed position. -/
theorem foldUpdates_burning_provenance (n : ℕ) (cond : EnvironmentalConditions)
    (rand : ℕ → ℚ) :
    ∀ (l : List (ℕ × ℕ)) (g : Grid) (newly : List (ℕ × ℕ)) (k : ℕ) (q : ℕ × ℕ),
      ((foldUpdates n cond rand l g newly k).1 q.1 q.2).burn_state = BurnState.burning →
      (g q.1 q.2).burn_state = BurnState.burning ∨
        ∃ p ∈ l, q ∈ getNeighbors n p.1 p.2 := by
  intro l
  induction l with
  | nil =>
    intro g newly k q hpost
    exact Or.inl hpost
  | cons p rest ih =>
    intro g newly k q hpost
    simp only [foldUpdates] at hpost
    rcases ih _ _ _ q hpost with hmid | ⟨p', hp', hq⟩
    · by_cases hpre : (g q.1 q.2).burn_state = BurnState.burning
      · exact Or.inl hpre
      · exact Or.inr ⟨p, List.mem_cons_self p rest,
          updateBurningCell_burning_provenance n cond rand g k p.1 p.2 q hmid hpre⟩
    · exact Or.inr ⟨p', List.mem_cons_of_mem p hp', hq⟩

/-- With nonnegative draws, the update loop leaves every unprocessed
non-Unburned cell untouched. -/
theorem foldUpdates_frame_not_unburned (n : ℕ) (cond : EnvironmentalConditions)
    (rand : ℕ → ℚ) (h0 : ∀ m, 0 ≤ rand m) :
    ∀ (l : List (ℕ × ℕ)) (g : Grid) (newly : List (ℕ × ℕ)) (k : ℕ) (q : ℕ × ℕ),
      q ∉ l → (g q.1 q.2).burn_state ≠ BurnState.unburned →
      (foldUpdates n cond rand l g newly k).1 q.1 q.2 = g q.1 q.2 := by
  intro l
  induction l with
  | nil =>
    intro g newly k q _ _
    rfl
  | cons p rest ih =>
    intro g newly k q hq hstate
    have hqp : ¬(q.1 = p.1 ∧ q.2 = p.2) := by
      intro hcontra
      exact hq (by
        rw [show q = p from Prod.ext hcontra.1 hcontra.2]
        exact List.mem_cons_self p rest)
    have hframe := updateBurningCell_frame_not_unburned n cond rand g k p.1 p.2 q
      h0 hqp hstate
    simp only [foldUpdates]
    rw [ih _ _ _ q (fun hmem => hq (List.mem_cons_of_mem p hmem))
      (by rw [hframe]; exact hstate), hframe]

/-- The update loop never changes any cell's terrain type. -/
theorem foldUpdates_terrain (n : ℕ) (cond : EnvironmentalConditions)
    (rand : ℕ → ℚ) :
    ∀ (l : List (ℕ × ℕ)) (g : Grid) (newly : List (ℕ × ℕ)) (k : ℕ) (qr qc : ℕ),
      ((foldUpdates n cond rand l g newly k).1 qr qc).terrain_type =
        (g qr qc).terrain_type := by
  intro l
  induction l with
  | nil =>
    intro g newly k qr qc
    rfl
  | cons p rest ih =>
    intro g newly k qr qc
    simp only [foldUpdates]
    rw [ih, updateBurningCell_terrain]

/-- The post-step grid is the update fold over the snapshot. -/
theorem stepE_grid (e : Engine) (rand : ℕ → ℚ) (k : ℕ) :
    (stepE e rand k).1.grid =
      (foldUpdates e.grid_size e.conditions rand (burningCells e) e.grid [] k).1 :=
  rfl

/-- Each cell that was Burning when `step()` started is transformed to
exactly `burningCellAfterTick` of its pre-step state: earlier and later
snapshot cells never write into it (it is never Unburned), and its own
update is deterministic. -/
theorem step_burning_cell_update (e : Engine) (rand : ℕ → ℚ) (k : ℕ)
    (h0 : ∀ m, 0 ≤ rand m) (r c : ℕ) (hr : r < e.grid_size)
    (hc : c < e.grid_size)
    (hb : (e.grid r c).burn_state = BurnState.burning) :
    (stepE e rand k).1.grid r c = burningCellAfterTick e.conditions (e.grid r c) := by
  have hp : ((r, c) : ℕ × ℕ) ∈ burningCells e :=
    mem_burningCells.mpr ⟨hr, hc, hb⟩
  obtain ⟨l1, l2, hsplit⟩ := List.append_of_mem hp
  have hnodup := burningCells_nodup e
  rw [hsplit] at hnodup
  have hnotl1 : ((r, c) : ℕ × ℕ) ∉ l1 := by
    rcases List.nodup_append.mp hnodup with ⟨_, _, hdisj⟩
    intro hmem
    exact hdisj hmem (List.mem_cons_self _ _)
  have hnotl2 : ((r, c) : ℕ × ℕ) ∉ l2 := by
    rcases List.nodup_append.mp hnodup with ⟨_, hcons, _⟩
    exact (List.nodup_cons.mp hcons).1
  rw [stepE_grid, hsplit, foldUpdates_append]
  set u1 := foldUpdates e.grid_size e.conditions rand l1 e.grid [] k with hu1
  have hg1 : u1.1 r c = e.grid r c :=
    foldUpdates_frame_not_unburned e.grid_size e.conditions rand h0 l1 e.grid [] k
      (r, c) hnotl1 (by rw [hb]; intro hcontra; cases hcontra)
  simp only [foldUpdates]
  have hupd : (updateBurningCell e.grid_size e.conditions rand u1.1 u1.2.2 r c).1 r c =
      burningCellAfterTick e.conditions (e.grid r c) := by
    rw [updateBurningCell_source, hg1]
  have hstate : ((updateBurningCell e.grid_size e.conditions rand u1.1 u1.2.2 r c).1 r c).burn_state ≠
      BurnState.unburned := by
    rw [hupd]
    simp only [burningCellAfterTick]
    split
    · intro hcontra
      cases hcontra
    · rw [show ({ e.grid r c with
          fuel_load := max 0 ((e.grid r c).fuel_load -
            (terrainFireParamsGet (e.grid r c).terrain_type).fuel_consumption_rate *
              (e.grid r c).burn_intensity),
          temperature := min 1000 ((e.grid r c).temperature +
            (terrainFireParamsGet (e.grid r c).terrain_type).heat_generation *
              (e.grid r c).burn_intensity * 50),
          moisture := max 0 ((e.grid r c).moisture -
            (terrainFireParamsGet (e.grid r c).terrain_type).moisture_loss_rate *
              (e.grid r c).burn_intensity),
          burn_duration := (e.grid r c).burn_duration + 1 } : CellState).burn_state =
          (e.grid r c).burn_state from rfl, hb]
      intro hcontra
      cases hcontra
  rw [foldUpdates_frame_not_unburned e.grid_size e.conditions rand h0 l2 _ _ _
    (r, c) hnotl2 hstate, hupd]

/-- C1.  Single-hop spread: every cell that is newly Burning after one
`step()` is at Chebyshev distance exactly 1 from some cell that was Burning
before the tick (the snapshot discipline prevents chained ignition within a
tick); in particular, if only (5,5) was Burning, no cell at Chebyshev
distance greater than 1 from (5,5) is Burning after the tick. -/
theorem c1_single_hop_spread (e : Engine) (rand : ℕ → ℚ) (k : ℕ) :
    (∀ r c, r < e.grid_size → c < e.grid_size →
      ((stepE e rand k).1.grid r c).burn_state = BurnState.burning →
      (e.grid r c).burn_state ≠ BurnState.burning →
      ∃ p : ℕ × ℕ, p.1 < e.grid_size ∧ p.2 < e.grid_size ∧
        (e.grid p.1 p.2).burn_state = BurnState.burning ∧ cheb (r, c) p = 1) ∧
    ((∀ r c, r < e.grid_size → c < e.grid_size →
        (e.grid r c).burn_state = BurnState.burning → r = 5 ∧ c = 5) →
      ∀ r c, r < e.grid_size → c < e.grid_size → cheb (r, c) (5, 5) > 1 →
        ((stepE e rand k).1.grid r c).burn_state ≠ BurnState.burning) := by
  have key : ∀ r c, r < e.grid_size → c < e.grid_size →
      ((stepE e rand k).1.grid r c).burn_state = BurnState.burning →
      (e.grid r c).burn_state ≠ BurnState.burning →
      ∃ p : ℕ × ℕ, p.1 < e.grid_size ∧ p.2 < e.grid_size ∧
        (e.grid p.1 p.2).burn_state = BurnState.burning ∧ cheb (r, c) p = 1 := by
    intro r c hr hc hpost hpre
    rw [stepE_grid] at hpost
    rcases foldUpdates_burning_provenance e.grid_size e.conditions rand
        (burningCells e) e.grid [] k (r, c) hpost with h | ⟨p, hp, hq⟩
    · exact absurd h hpre
    · have hmem := mem_burningCells.mp hp
      have hnb := mem_getNeighbors hq
      exact ⟨p, hmem.1, hmem.2.1, hmem.2.2, by
        have := hnb.2.2.1
        simpa using this⟩
  refine ⟨key, ?_⟩
  intro honly r c hr hc hdist hpost
  by_cases hpre : (e.grid r c).burn_state = BurnState.burning
  · obtain ⟨rfl, rfl⟩ := honly r c hr hc hpre
    simp only [cheb] at hdist
    omega
  · rcases key r c hr hc hpost hpre with ⟨p, hp1, hp2, hpb, hcheb⟩
    obtain ⟨h5, h5'⟩ := honly p.1 p.2 hp1 hp2 hpb
    rw [show p = ((5 : ℕ), (5 : ℕ)) from Prod.ext h5 h5'] at hcheb
    omega

/-- An 8×8 engine in which only (5,5) is Burning (grass), everything else
water. -/
def onlyCenterEngine : Engine :=
  { grid_size := 8,
    grid := fun r c =>
      if r = 5 ∧ c = 5 then
        { terrain_type := "grass", burn_state := BurnState.burning,
          burn_intensity := 1, burn_duration := 1, moisture := 0.3,
          fuel_load := 1, temperature := 25 }
      else
        { terrain_type := "water", burn_state := BurnState.unburned,
          burn_intensity := 0, burn_duration := 0, moisture := 1,
          fuel_load := 0, temperature := 25 },
    tick_count := 0,
    conditions := {} }

/-- Witness for C1: with only (5,5) burning, (0,0) (Chebyshev distance 5)
is not Burning after one step. -/
theorem c1_single_hop_spread_witness :
    ((stepE onlyCenterEngine (fun _ => 0) 0).1.grid 0 0).burn_state ≠
      BurnState.burning := by
  apply (c1_single_hop_spread onlyCenterEngine (fun _ => 0) 0).2
  · intro r c hr hc hb
    by_cases h55 : r = 5 ∧ c = 5
    · exact h55
    · exfalso
      revert hb
      simp [onlyCenterEngine, h55]
  · decide
  · decide
  · decide

/-- The random stream used in the 1×1 forest scenario (its values are
irrelevant: a 1×1 grid has no neighbors). -/
def forestRand : ℕ → ℚ := fun _ => 1/2

/-- One tick of the 1×1 forest scenario, threading the random counter as
the engine's caller does. -/
noncomputable def forestStep (s : Engine × ℕ) : Engine × ℕ :=
  ((stepE s.1 forestRand s.2).1, (stepE s.1 forestRand s.2).2.2)

/-- A 1×1 all-forest engine as produced by initialization (forest default
moisture 0.6, full fuel, Unburned, ambient temperature 25). -/
def forestEngine1 : Engine :=
  { grid_size := 1,
    grid := fun _ _ =>
      { terrain_type := "forest", burn_state := BurnState.unburned,
        burn_intensity := 0, burn_duration := 0, moisture := 0.6,
        fuel_load := 1, temperature := 25 },
    tick_count := 0,
    conditions := {} }

/-- One step of a 1×1 engine whose single cell is Burning: the cell becomes
`burningCellAfterTick` of itself; size and conditions are unchanged. -/
theorem step1_burning (E : Engine) (rand : ℕ → ℚ) (k : ℕ) (cellPre : CellState)
    (h0 : ∀ m, 0 ≤ rand m) (h1 : E.grid_size = 1)
    (hcell : E.grid 0 0 = cellPre)
    (hb : cellPre.burn_state = BurnState.burning) :
    (stepE E rand k).1.grid 0 0 = burningCellAfterTick E.conditions cellPre ∧
    (stepE E rand k).1.grid_size = 1 ∧
    (stepE E rand k).1.conditions = E.conditions := by
  refine ⟨?_, h1, rfl⟩
  rw [step_burning_cell_update E rand k h0 0 0 (by omega) (by omega)
    (by rw [hcell]; exact hb), hcell]

/-- One step of a 1×1 engine whose single cell is not Burning: the grid is
untouched. -/
theorem step1_not_burning (E : Engine) (rand : ℕ → ℚ) (k : ℕ)
    (h1 : E.grid_size = 1)
    (hnb : (E.grid 0 0).burn_state ≠ BurnState.burning) :
    (stepE E rand k).1.grid 0 0 = E.grid 0 0 ∧
    (stepE E rand k).1.grid_size = 1 ∧
    (stepE E rand k).1.conditions = E.conditions := by
  have hnil : burningCells E = [] := by
    apply burningCells_nil
    intro r c hr hc
    rw [h1] at hr hc
    have hr0 : r = 0 := by omega
    have hc0 : c = 0 := by omega
    rw [hr0, hc0]
    exact hnb
  refine ⟨?_, h1, rfl⟩
  rw [stepE_grid, hnil]
  rfl

/-- One forest-scenario tick on a Burning single cell, phrased for chaining. -/
theorem forestStep_burning (s : Engine × ℕ) (pre post : CellState)
    (hsz : s.1.grid_size = 1)
    (hcond : s.1.conditions = ({} : EnvironmentalConditions))
    (hcell : s.1.grid 0 0 = pre) (hb : pre.burn_state = BurnState.burning)
    (hpost : burningCellAfterTick {} pre = post) :
    (forestStep s).1.grid 0 0 = post ∧ (forestStep s).1.grid_size = 1 ∧
    (forestStep s).1.conditions = ({} : EnvironmentalConditions) := by
  have h := step1_burning s.1 forestRand s.2 pre
    (by intro m; norm_num [forestRand]) hsz hcell hb
  refine ⟨?_, h.2.1, ?_⟩
  · rw [show (forestStep s).1.grid 0 0 = (stepE s.1 forestRand s.2).1.grid 0 0 from rfl,
      h.1, hcond, hpost]
  · rw [show (forestStep s).1.conditions = (stepE s.1 forestRand s.2).1.conditions from rfl,
      h.2.2, hcond]

/-- One forest-scenario tick on a non-Burning single cell: no change. -/
theorem forestStep_not_burning (s : Engine × ℕ)
    (hsz : s.1.grid_size = 1)
    (hnb : (s.1.grid 0 0).burn_state ≠ BurnState.burning) :
    (forestStep s).1.grid 0 0 = s.1.grid 0 0 ∧ (forestStep s).1.grid_size = 1 := by
  have h := step1_not_burning s.1 forestRand s.2 hsz hnb
  exact ⟨h.1, h.2.1⟩

/-- C4.  Per-tick burning-cell update: every cell Burning at the start of a
tick has, after `step()`, `fuel_load = max 0 (fuel - rate·intensity)`,
`temperature = min 1000 (temp + heat·intensity·50)`,
`moisture = max 0 (moisture - loss·intensity)`, `burn_duration + 1`, and —
exactly when the new duration reaches `max_burn_duration` or the new fuel is
≤ 0.1 — becomes Burned with zero intensity and ambient temperature (this is
`burningCellAfterTick`); consequently, on a 1×1 forest grid
(`max_burn_duration = 8`), after igniting with intensity 1 and advancing 8
ticks the cell is Burned with `burn_intensity = 0`. -/
theorem c4_burning_cell_per_tick :
    (∀ (e : Engine) (rand : ℕ → ℚ) (k : ℕ), (∀ m, 0 ≤ rand m) →
      ∀ r c, r < e.grid_size → c < e.grid_size →
        (e.grid r c).burn_state = BurnState.burning →
        (stepE e rand k).1.grid r c = burningCellAfterTick e.conditions (e.grid r c)) ∧
    ((forestStep (forestStep (forestStep (forestStep (forestStep (forestStep (forestStep (forestStep ((igniteCell forestEngine1 0 0 1).1, 0))))))))).1.grid 0 0).burn_state = BurnState.burned ∧
    ((forestStep (forestStep (forestStep (forestStep (forestStep (forestStep (forestStep (forestStep ((igniteCell forestEngine1 0 0 1).1, 0))))))))).1.grid 0 0).burn_intensity = 0 := by
  refine ⟨fun e rand k h0 r c hr hc hb =>
    step_burning_cell_update e rand k h0 r c hr hc hb, ?_, ?_⟩ <;>
  · have hE0 : ((igniteCell forestEngine1 0 0 1).1, (0 : ℕ)).1.grid 0 0 =
        (⟨"forest", BurnState.burning, 1, 1, 0.6, 1, 25⟩ : CellState) := by
      norm_num [igniteCell, forestEngine1, isValidPosition,
        terrainFireParamsGet_forest, forestParams, setCell, min_def]
    have hE0sz : ((igniteCell forestEngine1 0 0 1).1, (0 : ℕ)).1.grid_size = 1 := by
      norm_num [igniteCell, forestEngine1, isValidPosition,
        terrainFireParamsGet_forest, forestParams]
    have hE0cond : ((igniteCell forestEngine1 0 0 1).1, (0 : ℕ)).1.conditions =
        ({} : EnvironmentalConditions) := by
      norm_num [igniteCell, forestEngine1, isValidPosition,
        terrainFireParamsGet_forest, forestParams]
    have t1 := forestStep_burning ((igniteCell forestEngine1 0 0 1).1, 0)
      ⟨"forest", BurnState.burning, 1, 1, 0.6, 1, 25⟩
      ⟨"forest", BurnState.burning, 1, 2, 0.45, 0.88, 70⟩
      hE0sz hE0cond hE0 rfl
      (by norm_num [burningCellAfterTick, terrainFireParamsGet_forest,
        forestParams, max_def, min_def])
    have t2 := forestStep_burning _
      ⟨"forest", BurnState.burning, 1, 2, 0.45, 0.88, 70⟩
      ⟨"forest", BurnState.burning, 1, 3, 0.3, 0.76, 115⟩
      t1.2.1 t1.2.2 t1.1 rfl
      (by norm_num [burningCellAfterTick, terrainFireParamsGet_forest,
        forestParams, max_def, min_def])
    have t3 := forestStep_burning _
      ⟨"forest", BurnState.burning, 1, 3, 0.3, 0.76, 115⟩
      ⟨"forest", BurnState.burning, 1, 4, 0.15, 0.64, 160⟩
      t2.2.1 t2.2.2 t2.1 rfl
      (by norm_num [burningCellAfterTick, terrainFireParamsGet_forest,
        forestParams, max_def, min_def])
    have t4 := forestStep_burning _
      ⟨"forest", BurnState.burning, 1, 4, 0.15, 0.64, 160⟩
      ⟨"forest", BurnState.burning, 1, 5, 0, 0.52, 205⟩
      t3.2.1 t3.2.2 t3.1 rfl
      (by norm_num [burningCellAfterTick, terrainFireParamsGet_forest,
        forestParams, max_def, min_def])
    have t5 := forestStep_burning _
      ⟨"forest", BurnState.burning, 1, 5, 0, 0.52, 205⟩
      ⟨"forest", BurnState.burning, 1, 6, 0, 0.4, 250⟩
      t4.2.1 t4.2.2 t4.1 rfl
      (by norm_num [burningCellAfterTick, terrainFireParamsGet_forest,
        forestParams, max_def, min_def])
    have t6 := forestStep_burning _
      ⟨"forest", BurnState.burning, 1, 6, 0, 0.4, 250⟩
      ⟨"forest", BurnState.burning, 1, 7, 0, 0.28, 295⟩
      t5.2.1 t5.2.2 t5.1 rfl
      (by norm_num [burningCellAfterTick, terrainFireParamsGet_forest,
        forestParams, max_def, min_def])
    have t7 := forestStep_burning _
      ⟨"forest", BurnState.burning, 1, 7, 0, 0.28, 295⟩
      ⟨"forest", BurnState.burned, 0, 8, 0, 0.16, 25⟩
      t6.2.1 t6.2.2 t6.1 rfl
      (by norm_num [burningCellAfterTick, terrainFireParamsGet_forest,
        forestParams, max_def, min_def])
    have t8 := forestStep_not_burning _ t7.2.1
      (by rw [t7.1]; intro hcontra; cases hcontra)
    rw [t8.1, t7.1]

/-- Witness for C4 at the concrete only-center engine. -/
theorem c4_burning_cell_per_tick_witness :
    (∀ m : ℕ, (0 : ℚ) ≤ 0) ∧
    (stepE onlyCenterEngine (fun _ => 0) 0).1.grid 5 5 =
      burningCellAfterTick ({} : EnvironmentalConditions)
        (onlyCenterEngine.grid 5 5) :=
  ⟨fun _ => le_refl 0,
   c4_burning_cell_per_tick.1 onlyCenterEngine (fun _ => 0) 0
     (fun _ => le_refl 0) 5 5 (by decide) (by decide) (by decide)⟩

/-- The invariant: every in-bounds cell on non-flammable terrain is
Unburned. -/
def NonflamUnburned (n : ℕ) (g : Grid) : Prop :=
  ∀ r c, r < n → c < n →
    (terrainFireParamsGet (g r c).terrain_type).is_flammable = false →
    (g r c).burn_state = BurnState.unburned

/-- The update loop preserves the non-flammable invariant when every
processed cell sits on flammable terrain. -/
theorem foldUpdates_preserves_nonflam (n : ℕ) (cond : EnvironmentalConditions)
    (rand : ℕ → ℚ) (h0 : ∀ m, 0 ≤ rand m) :
    ∀ (l : List (ℕ × ℕ)) (g : Grid) (newly : List (ℕ × ℕ)) (k : ℕ),
      NonflamUnburned n g →
      (∀ p ∈ l, (terrainFireParamsGet (g p.1 p.2).terrain_type).is_flammable = true) →
      NonflamUnburned n (foldUpdates n cond rand l g newly k).1 := by
  intro l
  induction l with
  | nil =>
    intro g newly k hinv _
    exact hinv
  | cons p rest ih =>
    intro g newly k hinv hflam
    simp only [foldUpdates]
    apply ih
    · intro r c hr hc hnf
      have ht := updateBurningCell_terrain n cond rand g k p.1 p.2 r c
      rw [ht] at hnf
      have hfr := updateBurningCell_frame_nonflammable n cond rand g k p.1 p.2
        (r, c) h0 (hflam p (List.mem_cons_self p rest)) hnf
      rw [show (updateBurningCell n cond rand g k p.1 p.2).1 r c = g r c from hfr]
      exact hinv r c hr hc hnf
    · intro p' hp'
      rw [updateBurningCell_terrain]
      exact hflam p' (List.mem_cons_of_mem p hp')

/-- The `step()` preserves the non-flammable invariant. -/
theorem stepE_preserves_nonflam (e : Engine) (rand : ℕ → ℚ) (k : ℕ)
    (h0 : ∀ m, 0 ≤ rand m)
    (hinv : NonflamUnburned e.grid_size e.grid) :
    NonflamUnburned e.grid_size (stepE e rand k).1.grid := by
  rw [stepE_grid]
  apply foldUpdates_preserves_nonflam e.grid_size e.conditions rand h0 _ _ _ _ hinv
  intro p hp
  have hm := mem_burningCells.mp hp
  cases hbool : (terrainFireParamsGet (e.grid p.1 p.2).terrain_type).is_flammable
  · have := hinv p.1 p.2 hm.1 hm.2.1 hbool
    rw [hm.2.2] at this
    cases this
  · rfl

/-- The `ignite_cell` preserves the non-flammable invariant. -/
theorem igniteCell_preserves_nonflam (e : Engine) (row col : ℤ) (i : ℚ)
    (hinv : NonflamUnburned e.grid_size e.grid) :
    NonflamUnburned (igniteCell e row col i).1.grid_size
      (igniteCell e row col i).1.grid := by
  simp only [igniteCell]
  by_cases hv : isValidPosition e.grid_size row col = false
  · rw [if_pos hv]
    exact hinv
  · rw [if_neg hv]
    by_cases hf : (terrainFireParamsGet (e.grid row.toNat col.toNat).terrain_type).is_flammable = false
    · rw [if_pos hf]
      exact hinv
    · rw [if_neg hf]
      by_cases hu : (e.grid row.toNat col.toNat).burn_state = BurnState.unburned ∧
          (e.grid row.toNat col.toNat).fuel_load > 0
      · rw [if_pos hu]
        by_cases hi : i > (e.grid row.toNat col.toNat).moisture *
            (terrainFireParamsGet (e.grid row.toNat col.toNat).terrain_type).ignition_threshold
        · rw [if_pos hi]
          intro r c hr hc hnf
          dsimp only at hnf hr hc ⊢
          by_cases hrc : r = row.toNat ∧ c = col.toNat
          · exfalso
            rw [hrc.1, hrc.2, setCell_same] at hnf
            exact hf hnf
          · rw [setCell_other _ _ _ _ _ _ hrc] at hnf ⊢
            exact hinv r c hr hc hnf
        · rw [if_neg hi]
          exact hinv
      · rw [if_neg hu]
        exact hinv

/-- The `reset()` establishes the invariant outright (everything is Unburned). -/
theorem resetEngine_nonflam (e : Engine) :
    NonflamUnburned (resetEngine e).grid_size (resetEngine e).grid := by
  intro r c hr hc _
  simp only [resetEngine]
  rw [if_pos ⟨hr, hc⟩]

/-- A successfully initialized grid has every cell Unburned. -/
theorem initFromTerrainGrid_unburned (e : Engine) (tg : List (List TerrainData))
    (e' : Engine) (h : initFromTerrainGrid e tg = some e') :
    ∀ r c, (e'.grid r c).burn_state = BurnState.unburned := by
  simp only [initFromTerrainGrid] at h
  rcases Option.map_eq_some'.mp h with ⟨rows, hrows, hval⟩
  intro r c
  rw [← hval]
  dsimp only
  by_cases hrlen : r < rows.length
  · have hmemrow : rows.getD r [] ∈ rows := by
      rw [List.getD_eq_getElem rows [] hrlen]
      exact List.getElem_mem hrlen
    rcases traverseOption_mem hrows _ hmemrow with ⟨a, _, hfa⟩
    by_cases hclen : c < (rows.getD r []).length
    · have hmemcell : (rows.getD r []).getD c default ∈ rows.getD r [] := by
        rw [List.getD_eq_getElem _ default hclen]
        exact List.getElem_mem hclen
      rcases traverseOption_mem hfa _ hmemcell with ⟨b, _, hgb⟩
      rcases Option.map_eq_some'.mp hgb with ⟨td, _, hcell⟩
      rw [← hcell]
      rfl
    · rw [List.getD_eq_default _ default (by omega)]
      rfl
  · rw [List.getD_eq_default _ [] (by omega)]
    rfl

/-- Applying a single well-formed operation preserves the invariant. -/
theorem applyOp_preserves_nonflam (e : Engine) (op : Op) (hwf : opWF op)
    (hinv : NonflamUnburned e.grid_size e.grid) :
    NonflamUnburned (applyOp e op).grid_size (applyOp e op).grid := by
  cases op with
  | initGrid tg =>
    simp only [applyOp]
    cases hinit : initFromTerrainGrid e tg with
    | none =>
      simp only [Option.getD_none]
      exact hinv
    | some e2 =>
      simp only [Option.getD_some]
      intro r c _ _ _
      exact initFromTerrainGrid_unburned e tg e2 hinit r c
  | ignite row col i => exact igniteCell_preserves_nonflam e row col i hinv
  | step rand => exact stepE_preserves_nonflam e rand 0 hwf hinv
  | setEnv u => exact hinv
  | reset => exact resetEngine_nonflam e

/-- Applying any sequence of well-formed operations preserves the
invariant. -/
theorem applyOps_preserves_nonflam (e : Engine) (ops : List Op)
    (hwf : ∀ op ∈ ops, opWF op)
    (hinv : NonflamUnburned e.grid_size e.grid) :
    NonflamUnburned (applyOps e ops).grid_size (applyOps e ops).grid := by
  induction ops generalizing e with
  | nil => exact hinv
  | cons op rest ih =>
    exact ih (applyOp e op)
      (fun o ho => hwf o (List.mem_cons_of_mem op ho))
      (applyOp_preserves_nonflam e op (hwf op (List.mem_cons_self op rest)) hinv)

/-- C5.  Non-flammable invariant: water is non-flammable; a freshly
initialized grid satisfies "every non-flammable cell is Unburned"; any
sequence of initialize / ignite / step / set-conditions / reset operations
(with random draws in `[0,1)`) preserves it, so a water or beach cell never
leaves Unburned and in particular is never Burning; moreover a direct
`ignite_cell` on non-flammable terrain always returns false, and the spread
probability into a non-flammable cell is always zero. -/
theorem c5_nonflammable_never_burns :
    (terrainFireParamsGet "water").is_flammable = false ∧
    (terrainFireParamsGet "beach").is_flammable = false ∧
    (∀ e tg e2, initFromTerrainGrid e tg = some e2 →
      NonflamUnburned e2.grid_size e2.grid) ∧
    (∀ e ops, NonflamUnburned e.grid_size e.grid → (∀ op ∈ ops, opWF op) →
      NonflamUnburned (applyOps e ops).grid_size (applyOps e ops).grid) ∧
    (∀ e (row col : ℤ) (i : ℚ),
      (terrainFireParamsGet (e.grid row.toNat col.toNat).terrain_type).is_flammable = false →
      (igniteCell e row col i).2 = false) ∧
    (∀ cond src tgt (sr sc tr tc : ℤ),
      (terrainFireParamsGet tgt.terrain_type).is_flammable = false →
      calculateSpreadProbability cond src tgt sr sc tr tc = 0) := by
  refine ⟨by rw [terrainFireParamsGet_water]; rfl, ?_, ?_, ?_, ?_, ?_⟩
  · simp [terrainFireParamsGet, beachParams]
  · intro e tg e2 h r c _ _ _
    exact initFromTerrainGrid_unburned e tg e2 h r c
  · intro e ops hinv hwf
    exact applyOps_preserves_nonflam e ops hwf hinv
  · intro e row col i h
    simp only [igniteCell]
    by_cases hv : isValidPosition e.grid_size row col = false
    · rw [if_pos hv]
    · rw [if_neg hv, if_pos h]
  · intro cond src tgt sr sc tr tc h
    exact spreadProb_zero_of_nonflammable cond src tgt sr sc tr tc h

/-- Witness for C5 on the 1×1 water engine with a reset, an ignition
attempt, and a step. -/
theorem c5_nonflammable_never_burns_witness :
    (terrainFireParamsGet ((waterEngine1.grid 0 0)).terrain_type).is_flammable = false ∧
    NonflamUnburned
      (applyOps waterEngine1 [Op.reset, Op.ignite 0 0 1, Op.step (fun _ => 0)]).grid_size
      (applyOps waterEngine1 [Op.reset, Op.ignite 0 0 1, Op.step (fun _ => 0)]).grid := by
  refine ⟨rfl, ?_⟩
  apply c5_nonflammable_never_burns.2.2.2.1
  · intro r c hr hc _
    have hsz : waterEngine1.grid_size = 1 := rfl
    rw [hsz] at hr hc
    have hr0 : r = 0 := by omega
    have hc0 : c = 0 := by omega
    rw [hr0, hc0]
    rfl
  · intro op hop
    rcases List.mem_cons.mp hop with rfl | hop
    · trivial
    rcases List.mem_cons.mp hop with rfl | hop
    · trivial
    rcases List.mem_cons.mp hop with rfl | hop
    · intro m
      exact le_refl 0
    · cases hop

/-- With zero wind speed the wind effect is exactly 1, whatever the
direction and alignment. -/
theorem windEffect_no_wind (cond : EnvironmentalConditions)
    (h : cond.wind_speed = 0) (a b c d : ℤ) :
    calculateWindEffect cond a b c d = 1 := by
  simp only [calculateWindEffect, h]
  norm_num [max_def, min_def]

/-- Burning grass source of the spread-bypass demonstration. -/
def demoSrc : CellState :=
  ⟨"grass", BurnState.burning, 0.2, 1, 0.5, 1, 25⟩

/-- Wet unburned grass target of the spread-bypass demonstration. -/
def demoTgt : CellState :=
  ⟨"grass", BurnState.unburned, 0, 0, 0.9, 1, 25⟩

/-- Water filler cell of the spread-bypass demonstration. -/
def demoWater : CellState :=
  ⟨"water", BurnState.unburned, 0, 0, 1, 0, 25⟩

/-- Conditions of the spread-bypass demonstration: defaults, no wind. -/
def demoCond : EnvironmentalConditions := { wind_speed := 0 }

/-- 2×2 demonstration engine: burning grass at (0,0), wet grass at (0,1),
water elsewhere. -/
def spreadDemoEngine : Engine :=
  { grid_size := 2,
    grid := fun r c =>
      if r = 0 ∧ c = 0 then demoSrc
      else if r = 0 ∧ c = 1 then demoTgt
      else demoWater,
    tick_count := 0,
    conditions := demoCond }

/-- The spread probability from any source of intensity 0.2 into the wet
grass target under the demo conditions is exactly 0.0209. -/
theorem demo_spread_prob (src : CellState) (hsrc : src.burn_intensity = 0.2) :
    calculateSpreadProbability demoCond src demoTgt 0 0 0 1 =
      ((209 : ℝ) / 10000) := by
  rw [calculateSpreadProbability]
  rw [if_neg (by norm_num [demoTgt])]
  rw [show demoTgt.terrain_type = "grass" from rfl, terrainFireParamsGet_grass]
  rw [if_neg (by norm_num [grassParams])]
  rw [if_neg (by norm_num [grassParams])]
  rw [windEffect_no_wind demoCond rfl]
  norm_num [grassParams, demoTgt, demoCond, hsrc, max_def, min_def]

/-- The spread probability into the water filler is zero (no fuel). -/
theorem demo_spread_prob_water (src : CellState) (a b c d : ℤ) :
    calculateSpreadProbability demoCond src demoWater a b c d = 0 := by
  rw [calculateSpreadProbability, if_pos (Or.inr (by norm_num [demoWater]))]

set_option maxHeartbeats 1000000 in
/-- C9.  Spread ignition bypasses the moisture-resistance threshold: in the
demo engine, one `step()` ignites the wet grass neighbor, setting it Burning
with `burn_intensity = min 1 (0.8 · 0.2) = 0.16` and `burn_duration = 1`,
even though 0.16 does not exceed the target's
`moisture * ignition_threshold = 0.18`, so a direct `ignite_cell` with the
same intensity on the same cell is rejected and mutates nothing. -/
theorem c9_spread_bypasses_ignition_threshold :
    ((stepE spreadDemoEngine (fun _ => 0) 0).1.grid 0 1) =
      (⟨"grass", BurnState.burning, 0.16, 1, 0.9, 1, 25⟩ : CellState) ∧
    (0.16 : ℚ) ≤ demoTgt.moisture *
      (terrainFireParamsGet demoTgt.terrain_type).ignition_threshold ∧
    (igniteCell spreadDemoEngine 0 1 0.16).2 = false ∧
    (igniteCell spreadDemoEngine 0 1 0.16).1 = spreadDemoEngine := by
  refine ⟨?_, ?_, ?_, ?_⟩
  · rw [stepE_grid]
    have hsnap : burningCells spreadDemoEngine = [(0, 0)] := by decide
    have hnb : getNeighbors 2 0 0 = [(0, 1), (1, 0), (1, 1)] := by decide
    have htgt : (⟨"grass", BurnState.unburned, 0, 0, 9/10, 1, 25⟩ : CellState) = demoTgt := by
      norm_num [demoTgt]
    have hw : (⟨"water", BurnState.unburned, 0, 0, 1, 0, 25⟩ : CellState) = demoWater := by
      norm_num [demoWater]
    have hp1 : calculateSpreadProbability demoCond
        ⟨"grass", BurnState.burning, 1/5, 2, 11/25, 19/20, 32⟩
        ⟨"grass", BurnState.unburned, 0, 0, 9/10, 1, 25⟩ 0 0 0 1 =
        ((209 : ℝ) / 10000) := by
      rw [htgt]
      exact demo_spread_prob _ (by norm_num)
    have hp2 : ∀ a b c d : ℤ, calculateSpreadProbability demoCond
        ⟨"grass", BurnState.burning, 1/5, 2, 11/25, 19/20, 32⟩
        ⟨"water", BurnState.unburned, 0, 0, 1, 0, 25⟩ a b c d = 0 := by
      intro a b c d
      rw [hw]
      exact demo_spread_prob_water _ a b c d
    rw [hsnap]
    simp only [foldUpdates, updateBurningCell,
      show spreadDemoEngine.grid_size = 2 from rfl,
      show spreadDemoEngine.conditions = demoCond from rfl, hnb, spreadLoop,
      setCell, Nat.cast_ofNat, Nat.cast_zero, Nat.cast_one]
    norm_num [demoSrc, demoTgt,
      demoWater, spreadDemoEngine, terrainFireParamsGet_grass, grassParams,
      min_def, max_def]
    simp only [hp1, hp2]
    norm_num [setCell]
  · rw [show demoTgt.terrain_type = "grass" from rfl, terrainFireParamsGet_grass]
    norm_num [demoTgt, grassParams]
  · norm_num [igniteCell, spreadDemoEngine, demoTgt, demoSrc, demoWater,
      isValidPosition, terrainFireParamsGet_grass, grassParams]
  · norm_num [igniteCell, spreadDemoEngine, demoTgt, demoSrc, demoWater,
      isValidPosition, terrainFireParamsGet_grass, grassParams]

end FireSim
